import Mathlib

/-!
Shallow embedding of the five PostToolUse hook scripts
(`coding_standards_hook.py`, `sql_format_hook.py`, `openapi_contract_hook.py`,
`serilog_enforcer_hook.py`, `layer_dependency_hook.py`).

Each hook reads one JSON payload, normalizes it to a `(file_path, content)`
pair, runs a fixed set of pure text checks, prints diagnostics and exits with
status 0 (allow) or 2 (block).  We model the text checks as pure functions
`String → List Diagnostic`, the per-hook pipeline as
`run : String → String → HookOutput`, and the JSON shell (including the places
where the Python code would raise an uncaught exception) as
`main : Option Json → Except Unit HookOutput` where `none` stands for stdin
text that fails JSON parsing and `Except.error` for an uncaught exception.

Python string primitives (`splitlines`, `strip`, `upper`, substring tests) and
the regular expressions used by the hooks are modelled character by character;
`\w` and case mapping are modelled on their ASCII fragment, which is the
fragment every pattern constant in the hooks uses.
-/

/-- Characters Python's `str.splitlines` treats as line boundaries
(`\n`, `\r`, `\v`, `\f`, the file/group/record separators, NEL, LS, PS). -/
def isLineBreak (c : Char) : Bool :=
  c = Char.ofNat 10 || c = Char.ofNat 13 || c = Char.ofNat 11 || c = Char.ofNat 12 ||
  c = Char.ofNat 28 || c = Char.ofNat 29 || c = Char.ofNat 30 || c = Char.ofNat 133 ||
  c = Char.ofNat 8232 || c = Char.ofNat 8233

/-- Characters Python's `str.strip()` / regex `\s` treat as whitespace
(ASCII part plus the separators also used by `splitlines`). -/
def pyIsSpace (c : Char) : Bool :=
  c = Char.ofNat 32 || c = Char.ofNat 9 || isLineBreak c

/-- ASCII fragment of Python regex `\w`: letters, digits, underscore. -/
def pyIsWord (c : Char) : Bool :=
  (Char.ofNat 97 ≤ c && c ≤ Char.ofNat 122) ||
  (Char.ofNat 65 ≤ c && c ≤ Char.ofNat 90) ||
  (Char.ofNat 48 ≤ c && c ≤ Char.ofNat 57) ||
  c = Char.ofNat 95

def pyIsDigit (c : Char) : Bool :=
  Char.ofNat 48 ≤ c && c ≤ Char.ofNat 57

/-- Accumulator pass of `splitlines`: cut at every line-break character,
treating `\r\n` as a single boundary. -/
def splitlinesAux : List Char → List Char → List (List Char)
  | [], acc => [acc.reverse]
  | [c], acc =>
    if isLineBreak c then [acc.reverse, []] else [(c :: acc).reverse]
  | c :: c2 :: rest2, acc =>
    if isLineBreak c then
      if c = Char.ofNat 13 && c2 = Char.ofNat 10 then acc.reverse :: splitlinesAux rest2 []
      else acc.reverse :: splitlinesAux (c2 :: rest2) []
    else splitlinesAux (c2 :: rest2) (c :: acc)

/-- Python `str.splitlines()`: the empty string gives `[]`, and a trailing
line break does not produce a trailing empty line. -/
def pySplitlines (s : String) : List String :=
  if s.data.isEmpty then []
  else
    let segs := splitlinesAux s.data []
    (if segs.getLast? = some [] then segs.dropLast else segs).map (fun l => String.mk l)

/-- Python `str.split(".")`: cut at every dot, keeping empty segments. -/
def splitDotAux : List Char → List Char → List (List Char)
  | [], acc => [acc.reverse]
  | c :: rest, acc =>
    if c = Char.ofNat 46 then acc.reverse :: splitDotAux rest []
    else splitDotAux rest (c :: acc)

def pySplitDot (s : String) : List String :=
  (splitDotAux s.data []).map (fun l => String.mk l)

/-- Python `str.lstrip()`. -/
def pyLstrip (s : String) : String :=
  String.mk (s.data.dropWhile pyIsSpace)

/-- Python `str.strip()`. -/
def pyStrip (s : String) : String :=
  String.mk (((s.data.dropWhile pyIsSpace).reverse.dropWhile pyIsSpace).reverse)

/-- Python `str.upper()` (ASCII). -/
def pyUpper (s : String) : String :=
  String.mk (s.data.map Char.toUpper)

/-- Python `str.lower()` (ASCII). -/
def pyLower (s : String) : String :=
  String.mk (s.data.map Char.toLower)

/-- `needle` occurs as a contiguous sublist of `hay`. -/
def listInfix (needle : List Char) : List Char → Bool
  | [] => needle.isEmpty
  | c :: rest => needle.isPrefixOf (c :: rest) || listInfix needle rest

/-- Python `needle in hay` on strings. -/
def strContains (hay needle : String) : Bool :=
  listInfix needle.data hay.data

/-- Python `hay.startswith(pre)`. -/
def strStarts (hay pre : String) : Bool :=
  pre.data.isPrefixOf hay.data

/-- Python `hay.endswith(post)`. -/
def strEnds (hay post : String) : Bool :=
  post.data.isSuffixOf hay.data

/-- 1-based enumeration, as Python `enumerate(lines, start=1)`. -/
def enumFrom1 : Nat → List String → List (Nat × String)
  | _, [] => []
  | n, x :: xs => (n, x) :: enumFrom1 (n + 1) xs

/-- Try to consume the literal `lit` (case sensitively). -/
def eatLit : List Char → List Char → Option (List Char)
  | [], cs => some cs
  | _, [] => none
  | l :: ls, c :: cs => if c = l then eatLit ls cs else none

/-- Try to consume the literal `lit` case-insensitively (ASCII). -/
def eatLitCI : List Char → List Char → Option (List Char)
  | [], cs => some cs
  | _, [] => none
  | l :: ls, c :: cs => if c.toLower = l.toLower then eatLitCI ls cs else none

/-- Consume one or more whitespace characters (maximal munch). -/
def eatWs1 (cs : List Char) : Option (List Char) :=
  match cs with
  | c :: rest => if pyIsSpace c then some ((c :: rest).dropWhile pyIsSpace) else none
  | [] => none

/-- Consume zero or more whitespace characters. -/
def eatWs0 (cs : List Char) : List Char :=
  cs.dropWhile pyIsSpace

/-- Consume one or more `\w` characters (maximal munch), returning them. -/
def eatWord1 (cs : List Char) : Option (List Char × List Char) :=
  match cs with
  | c :: rest =>
    if pyIsWord c then some ((c :: rest).takeWhile pyIsWord, (c :: rest).dropWhile pyIsWord)
    else none
  | [] => none

/-- Does `p prev suffix` hold at some position of the string?  `prev` is the
character immediately before the position (for `\b` word-boundary tests);
this is `re.search` over all start positions. -/
def scanWithPrev (p : Option Char → List Char → Bool) : Option Char → List Char → Bool
  | prev, [] => p prev []
  | prev, c :: rest => p prev (c :: rest) || scanWithPrev p (some c) rest

/-- All splits `(cs.take i, cs.drop i)` of a list. -/
def splitsOf (cs : List Char) : List (List Char × List Char) :=
  (List.range (cs.length + 1)).map (fun i => (cs.take i, cs.drop i))

/-- Severity of a finding, mirroring the warnings/blockers split and the
`("BLOCK", msg)` / `("WARN", msg)` tags in the Python hooks. -/
inductive Severity
  | WARN
  | BLOCK
deriving DecidableEq, Repr

/-- Which source-level check produced a diagnostic. -/
inductive RuleId
  | varUsage | xmlDocs | cancellationToken | sealedRecord
  | sqlHeader | sqlParamDoc | sqlConcat | sqlWhere
  | apiWithName | apiProduces | apiWithTags | apiSummary | apiAuth | apiDirectParam
  | logInterp | logPii
  | layerDomain | layerApplication | layerApi
deriving DecidableEq, Repr

/-- One finding: the check that produced it, its severity (which Python list
or tag the message was appended with), the 1-based source line interpolated
into the message (`none` for whole-file messages that carry no line), and the
message text. -/
structure Diagnostic where
  rule : RuleId
  severity : Severity
  line : Option Nat
  message : String
deriving DecidableEq, Repr

/-- Whether the hook process exits 0 (allow) or 2 (block). -/
inductive Decision
  | Allow
  | Block
deriving DecidableEq, Repr

/-- Decision plus the diagnostics printed to stderr. -/
structure HookOutput where
  decision : Decision
  diags : List Diagnostic
deriving DecidableEq, Repr

def allowNothing : HookOutput := ⟨Decision.Allow, []⟩

/-! ## coding_standards_hook.py -/

/-- `[a-zA-Z_]`, the character class after `\bvar\s+`. -/
def isVarFollower (c : Char) : Bool :=
  (Char.ofNat 97 ≤ c && c ≤ Char.ofNat 122) ||
  (Char.ofNat 65 ≤ c && c ≤ Char.ofNat 90) ||
  c = Char.ofNat 95

/-- Word-boundary test for the character before a match position. -/
def boundaryOk : Option Char → Bool
  | none => true
  | some p => !(pyIsWord p)

/-- `re.search(r'\bvar\s+[a-zA-Z_]', line)`. -/
def reVarSearch (line : String) : Bool :=
  scanWithPrev
    (fun prev cs =>
      boundaryOk prev &&
      (match eatLit (String.data ("var")) cs with
       | some r =>
         match eatWs1 r with
         | some r2 =>
           match r2 with
           | c :: _ => isVarFollower c
           | [] => false
         | none => false
       | none => false))
    none line.data

/-- `check_var_usage`: flag `var` declarations outside comment/string lines. -/
def check_var_usage (content : String) : List Diagnostic :=
  (enumFrom1 1 (pySplitlines content)).flatMap (fun p =>
    let stripped := pyLstrip p.2
    if strStarts stripped ("//") || strStarts stripped ("///") ||
       strStarts stripped ("/*") || strStarts stripped ("*") then []
    else if strStarts stripped ("\x22") || strStarts stripped ("\x27") then []
    else if reVarSearch p.2 then
      [⟨RuleId.varUsage, Severity.WARN, some p.1,
        ("  Line ") ++ toString p.1 ++
        (": Use explicit type instead of \x27var\x27. Lextech standard forbids var usage.")⟩]
    else [])

/-- Consume an optional `word\s+` group deterministically (used where the
following alternatives cannot begin with the same word). -/
def eatOptWord (w : String) (cs : List Char) : List Char :=
  match eatLit w.data cs with
  | some r =>
    match eatWs1 r with
    | some r2 => r2
    | none => cs
  | none => cs

/-- Both remainders of an optional `word\s+` group, consumed-first, for the
regexes where backtracking over the optional group matters. -/
def eatOptBranch (w : String) (cs : List Char) : List (List Char) :=
  match eatLit w.data cs with
  | some r =>
    match eatWs1 r with
    | some r2 => [r2, cs]
    | none => [cs]
  | none => [cs]

/-- `re.match(r'^public\s+(sealed\s+)?(partial\s+)?(static\s+)?(class|record|struct|interface|enum)\s+', stripped)`. -/
def reTypeDecl (stripped : String) : Bool :=
  match eatLit (String.data ("public")) stripped.data with
  | none => false
  | some r0 =>
    match eatWs1 r0 with
    | none => false
    | some r =>
      let r := eatOptWord ("sealed") r
      let r := eatOptWord ("partial") r
      let r := eatOptWord ("static") r
      [("class"), ("record"), ("struct"), ("interface"), ("enum")].any (fun k =>
        (match eatLit (String.data k) r with
         | some r2 => (eatWs1 r2).isSome
         | none => false))

/-- Backward scan for `/// <summary>` or `/// <inheritdoc` over up to four
lines above 0-based index `j`, skipping blank, attribute and other `///`
lines, mirroring the `for j in range(i - 1, max(i - 5, -1), -1)` loop. -/
def docScan (lines : List String) : Nat → Nat → Bool
  | 0, _ => false
  | _ + 1, 0 => false
  | fuel + 1, j + 1 =>
    let prev := pyStrip (lines.getD j (""))
    if strStarts prev ("/// <summary>") || strStarts prev ("/// <inheritdoc") then true
    else if strStarts prev ("///") || prev = "" || strStarts prev ("[") then
      docScan lines fuel j
    else false

/-- Character class `[\w<>\[\]?,\s]` of the method-declaration regex. -/
def isCLSChar (c : Char) : Bool :=
  pyIsWord c || pyIsSpace c || c = Char.ofNat 60 || c = Char.ofNat 62 ||
  c = Char.ofNat 91 || c = Char.ofNat 93 || c = Char.ofNat 63 || c = Char.ofNat 44

/-- Match `[\w<>\[\]?,\s]+\s+\w+\s*\(` at the start of `cs`
(existential over the backtracking split of the character-class run). -/
def methodTailAt (cs : List Char) : Bool :=
  (List.range cs.length).any (fun i =>
    let a := cs.take (i + 1)
    let b := cs.drop (i + 1)
    a.all isCLSChar &&
      (match eatWs1 b with
       | some r =>
         match eatWord1 r with
         | some (_, r2) =>
           (match eatWs0 r2 with
            | c :: _ => c = Char.ofNat 40
            | [] => false)
         | none => false
       | none => false))

/-- `re.match(r'^public\s+(sealed\s+)?(static\s+)?(override\s+)?(virtual\s+)?(async\s+)?[\w<>\[\]?,\s]+\s+\w+\s*\(', stripped)`. -/
def reMethodDecl (stripped : String) : Bool :=
  match eatLit (String.data ("public")) stripped.data with
  | none => false
  | some r0 =>
    match eatWs1 r0 with
    | none => false
    | some r =>
      ((eatOptBranch ("sealed") r).flatMap (fun r1 =>
        (eatOptBranch ("static") r1).flatMap (fun r2 =>
          (eatOptBranch ("override") r2).flatMap (fun r3 =>
            (eatOptBranch ("virtual") r3).flatMap (fun r4 =>
              eatOptBranch ("async") r4))))).any methodTailAt

/-- `check_xml_docs`: public type and method declarations must be preceded by
an XML doc comment within the four-line backward window. -/
def check_xml_docs (content : String) : List Diagnostic :=
  let lines := pySplitlines content
  (List.range lines.length).flatMap (fun i =>
    let stripped := pyStrip (lines.getD i (""))
    let typeWarn :=
      if reTypeDecl stripped && !(docScan lines 4 i) then
        [⟨RuleId.xmlDocs, Severity.WARN, some (i + 1),
          ("  Line ") ++ toString (i + 1) ++
          (": Public type declaration missing XML documentation. Add /// <summary> above the declaration.")⟩]
      else []
    let methodWarn :=
      if reMethodDecl stripped &&
         !(strContains stripped ("\x7b") && strContains stripped ("get;")) &&
         !(docScan lines 4 i) then
        [⟨RuleId.xmlDocs, Severity.WARN, some (i + 1),
          ("  Line ") ++ toString (i + 1) ++
          (": Public method missing XML documentation. Add /// <summary> above the method.")⟩]
      else []
    typeWarn ++ methodWarn)

/-- Match `\s+(\w+)\s*\(([^)]*)\)` at the start of `cs`, returning the
captured method name and parameter text. -/
def parenPartAt (cs : List Char) : Option (String × String) :=
  match eatWs1 cs with
  | none => none
  | some r =>
    match eatWord1 r with
    | some (w, r2) =>
      (match eatWs0 r2 with
       | c :: r3 =>
         if c = Char.ofNat 40 then
           let ps := r3.takeWhile (fun d => d ≠ Char.ofNat 41)
           if (r3.drop ps.length).isEmpty then none
           else some (String.mk w, String.mk ps)
         else none
       | [] => none)
    | none => none

/-- The access-modifier alternation `(public|private|protected|internal)\s+`. -/
def accessEat (cs : List Char) : Option (List Char) :=
  [("public"), ("private"), ("protected"), ("internal")].findSome? (fun w =>
    match eatLit (String.data w) cs with
    | some r => eatWs1 r
    | none => none)

/-- `re.match(r'^(public|private|protected|internal)\s+.*\basync\s+\w+.*\s+(\w+)\s*\(([^)]*)\)', stripped)`,
returning the captured `(method_name, params)` on success.  The two greedy
`.*` gaps are searched right to left, matching the engine's greedy choice. -/
def matchCancel (stripped : List Char) : Option (String × String) :=
  match accessEat stripped with
  | none => none
  | some rest =>
    ((List.range (rest.length + 1)).reverse).findSome? (fun j =>
      let prevOk := j = 0 || boundaryOk (some (rest.getD (j - 1) (Char.ofNat 32)))
      if !prevOk then none
      else
        match eatLit (String.data ("async")) (rest.drop j) with
        | none => none
        | some r0 =>
          match eatWs1 r0 with
          | none => none
          | some r =>
            match eatWord1 r with
            | some (_, r2) =>
              ((List.range (r2.length + 1)).reverse).findSome? (fun i =>
                parenPartAt (r2.drop i))
            | none => none)

/-- `check_cancellation_token`: async methods must take a CancellationToken. -/
def check_cancellation_token (content : String) : List Diagnostic :=
  (enumFrom1 1 (pySplitlines content)).flatMap (fun p =>
    let stripped := pyStrip p.2
    match matchCancel stripped.data with
    | some (name, params) =>
      if !(strContains params ("CancellationToken")) then
        [⟨RuleId.cancellationToken, Severity.WARN, some p.1,
          ("  Line ") ++ toString p.1 ++ (": Async method \x27") ++ name ++
          ("\x27 is missing a CancellationToken parameter.")⟩]
      else []
    | none => [])

/-- `re.match(r'^public\s+(sealed\s+)?(partial\s+)?(class|record|struct)\s+(\w+)', stripped)`,
returning `(is_sealed, kind, type_name)`. -/
def matchSealedRecord (stripped : List Char) : Option (Bool × String × String) :=
  match eatLit (String.data ("public")) stripped with
  | none => none
  | some r0 =>
    match eatWs1 r0 with
    | none => none
    | some r =>
      let sealedStep :=
        match eatLit (String.data ("sealed")) r with
        | some rr =>
          (match eatWs1 rr with
           | some r2 => (true, r2)
           | none => (false, r))
        | none => (false, r)
      let r1 := eatOptWord ("partial") sealedStep.2
      match [("class"), ("record"), ("struct")].findSome? (fun k =>
          match eatLit (String.data k) r1 with
          | some r2 => (eatWs1 r2).map (fun r3 => (k, r3))
          | none => none) with
      | some (kind, r3) =>
        (match eatWord1 r3 with
         | some (w, _) => some (sealedStep.1, kind, String.mk w)
         | none => none)
      | none => none

/-- `check_sealed_record`: types named `*Command`/`*Query` must be declared
`sealed record`. -/
def check_sealed_record (content : String) : List Diagnostic :=
  (enumFrom1 1 (pySplitlines content)).flatMap (fun p =>
    let stripped := pyStrip p.2
    match matchSealedRecord stripped.data with
    | some (isSealed, kind, name) =>
      if (strEnds name ("Command") || strEnds name ("Query")) &&
         (kind ≠ "record" || !isSealed) then
        [⟨RuleId.sealedRecord, Severity.WARN, some p.1,
          ("  Line ") ++ toString p.1 ++ (": \x27") ++ name ++
          ("\x27 should be declared as \x27sealed record\x27 but is \x27") ++
          (if isSealed then ("sealed ") else ("")) ++ kind ++ ("\x27.")⟩]
      else []
    | none => [])

/-- The four checks of `coding_standards_hook.main`, in source order. -/
def codingChecks (content : String) : List Diagnostic :=
  check_var_usage content ++ check_xml_docs content ++
  check_cancellation_token content ++ check_sealed_record content

/-- `coding_standards_hook.main` after normalization: `.cs` filter, empty
content short-circuit, then the four warning checks; never blocks. -/
def codingRun (fp content : String) : HookOutput :=
  if !(strEnds fp (".cs")) then allowNothing
  else if content = "" then allowNothing
  else ⟨Decision.Allow, codingChecks content⟩

/-! ## sql_format_hook.py -/

/-- `check_header_comment`: the file must start (after leading whitespace)
with `--` or `/*`.  The message carries no line number. -/
def check_header_comment (content : String) : List Diagnostic :=
  if !(strStarts (pyLstrip content) ("--")) && !(strStarts (pyLstrip content) ("/*")) then
    [⟨RuleId.sqlHeader, Severity.WARN, none,
      ("  SQL file is missing a header comment block. Add a comment describing the query\x27s purpose, parameters, and author.")⟩]
  else []

/-- `re.findall(r'@(\w+)', content)`: every `@`-prefixed word, in scan order.
Fuel-driven so the recursion is structural; the wrapper passes the input
length, which bounds the number of steps since each step consumes a char. -/
def findAtParamsAux : Nat → List Char → List (List Char)
  | 0, _ => []
  | _ + 1, [] => []
  | fuel + 1, c :: rest =>
    if c = Char.ofNat 64 then
      match rest with
      | d :: rest2 =>
        if pyIsWord d then
          ((d :: rest2).takeWhile pyIsWord) ::
            findAtParamsAux fuel ((d :: rest2).dropWhile pyIsWord)
        else findAtParamsAux fuel rest
      | [] => []
    else findAtParamsAux fuel rest

def findAtParams (cs : List Char) : List String :=
  (findAtParamsAux cs.length cs).map (fun w => String.mk w)

/-- The `builtin` exclusion set of `check_parameter_documentation`. -/
def sqlBuiltinParams : List String :=
  [("ROWCOUNT"), ("ERROR"), ("IDENTITY"), ("SCOPE_IDENTITY"), ("TRANCOUNT")]

/-- The leading contiguous comment block: stripped comment lines from the top
of the file, skipping blank lines, stopping at the first other line. -/
def commentSectionLines : List String → List String
  | [] => []
  | l :: rest =>
    let s := pyStrip l
    if strStarts s ("--") || strStarts s ("/*") || strStarts s ("*") || strStarts s ("*/") then
      s :: commentSectionLines rest
    else if s = "" then commentSectionLines rest
    else []

/-- Insertion sort by code-point order, as Python `sorted` on strings. -/
def insertSorted (x : String) : List String → List String
  | [] => [x]
  | y :: ys => if x < y then x :: y :: ys else y :: insertSorted x ys

def sortStrings (l : List String) : List String := l.foldr insertSorted []

/-- `params` of `check_parameter_documentation`: the `@`-prefixed names used
in the body, as a set, minus the builtin exclusions. -/
def sqlUsedParams (content : String) : List String :=
  ((findAtParams content.data).dedup).filter (fun p => !(sqlBuiltinParams.contains p))

/-- `comment_text`: the lowercased leading comment block joined by newlines. -/
def sqlCommentText (content : String) : String :=
  pyLower (String.intercalate ("\n") (commentSectionLines (pySplitlines content)))

/-- `undocumented`: used parameters whose lowercase name is absent from the
leading comment block, each prefixed with `@`. -/
def sqlUndocumented (content : String) : List String :=
  ((sqlUsedParams content).filter
    (fun p => !(strContains (sqlCommentText content) (pyLower p)))).map (fun p => ("@") ++ p)

/-- `check_parameter_documentation`: every used `@Param` outside the builtin
set must appear (lowercased) in the leading comment block; one batched
message with the sorted undocumented names, carrying no line number. -/
def check_parameter_documentation (content : String) : List Diagnostic :=
  if (sqlUsedParams content).isEmpty then []
  else if (sqlUndocumented content).isEmpty then []
  else
    [⟨RuleId.sqlParamDoc, Severity.WARN, none,
      ("  Undocumented SQL parameters: ") ++
      String.intercalate (", ") (sortStrings (sqlUndocumented content)) ++
      (". Add parameter descriptions to the header comment.")⟩]

/-- `re.search(r'\+\s*@', s)`. -/
def rePlusAt : List Char → Bool
  | [] => false
  | c :: rest =>
    (c = Char.ofNat 43 &&
      (match eatWs0 rest with
       | d :: _ => d = Char.ofNat 64
       | [] => false)) || rePlusAt rest

/-- `re.search(r"'\s*\+", s)`. -/
def reQuotePlus : List Char → Bool
  | [] => false
  | c :: rest =>
    (c = Char.ofNat 39 &&
      (match eatWs0 rest with
       | d :: _ => d = Char.ofNat 43
       | [] => false)) || reQuotePlus rest

/-- `re.search(r'\bCONCAT\s*\(', s, re.IGNORECASE)`. -/
def reConcatCall (s : String) : Bool :=
  scanWithPrev
    (fun prev cs =>
      boundaryOk prev &&
      (match eatLitCI (String.data ("concat")) cs with
       | some r =>
         (match eatWs0 r with
          | c :: _ => c = Char.ofNat 40
          | [] => false)
       | none => false))
    none s.data

/-- `check_string_concatenation`: per non-comment line, the three
SQL-injection-shaped concatenation patterns, each a BLOCK finding. -/
def check_string_concatenation (content : String) : List Diagnostic :=
  (enumFrom1 1 (pySplitlines content)).flatMap (fun p =>
    let stripped := pyStrip p.2
    if strStarts stripped ("--") || strStarts stripped ("/*") || strStarts stripped ("*") then []
    else
      (if rePlusAt stripped.data || reQuotePlus stripped.data then
        [⟨RuleId.sqlConcat, Severity.BLOCK, some p.1,
          ("  Line ") ++ toString p.1 ++
          (": String concatenation detected. Use parameterized queries with @-prefixed parameters only.")⟩]
       else []) ++
      (if reConcatCall stripped then
        [⟨RuleId.sqlConcat, Severity.BLOCK, some p.1,
          ("  Line ") ++ toString p.1 ++
          (": CONCAT() function detected in SQL. Use parameterized queries instead of building strings.")⟩]
       else []) ++
      (if strContains stripped ("string.Format") || strContains stripped ("String.Format") then
        [⟨RuleId.sqlConcat, Severity.BLOCK, some p.1,
          ("  Line ") ++ toString p.1 ++
          (": string.Format detected. Use parameterized queries with @-prefixed parameters.")⟩]
       else []))

/-- `re.search(r"=\s*'[^'@][^']*'", s)`: equality against a string literal
whose first character is neither a quote nor `@`, with a closing quote. -/
def reEqStrLit : List Char → Bool
  | [] => false
  | c :: rest =>
    (c = Char.ofNat 61 &&
      (match eatWs0 rest with
       | q :: r2 =>
         q = Char.ofNat 39 &&
         (match r2 with
          | f :: r3 =>
            f ≠ Char.ofNat 39 && f ≠ Char.ofNat 64 && r3.contains (Char.ofNat 39)
          | [] => false)
       | [] => false)) || reEqStrLit rest

def natOfDigits (ds : List Char) : Nat :=
  ds.foldl (fun n c => n * 10 + (c.toNat - 48)) 0

/-- `re.search(r'=\s*(\d+)', s)`: the first equality against a numeric
literal, returning its value. -/
def reEqNum : List Char → Option Nat
  | [] => none
  | c :: rest =>
    if c = Char.ofNat 61 then
      match eatWs0 rest with
      | d :: _ =>
        if pyIsDigit d then some (natOfDigits ((eatWs0 rest).takeWhile pyIsDigit))
        else reEqNum rest
      | [] => none
    else reEqNum rest

/-- The clause-terminator keywords ending the WHERE-clause state. -/
def whereTerminators : List String :=
  [("ORDER BY"), ("GROUP BY"), ("HAVING"), ("LIMIT"), ("OFFSET"),
   ("UNION"), ("INSERT"), ("UPDATE"), ("DELETE")]

/-- The diagnostics the WHERE-clause state machine emits for one in-clause
line (`original = line.strip()`): a string-literal equality and/or a numeric
equality with value above 1. -/
def whereLineDiags (i : Nat) (line : String) : List Diagnostic :=
  (if reEqStrLit (pyStrip line).data then
    [⟨RuleId.sqlWhere, Severity.BLOCK, some i,
      ("  Line ") ++ toString i ++
      (": Hardcoded string literal in WHERE clause. Use a @-prefixed parameter instead.")⟩]
   else []) ++
  (match reEqNum (pyStrip line).data with
   | some v =>
     if 1 < v then
       [⟨RuleId.sqlWhere, Severity.BLOCK, some i,
         ("  Line ") ++ toString i ++ (": Hardcoded numeric literal (") ++
         toString v ++ (") in WHERE clause. Use a @-prefixed parameter instead.")⟩]
     else []
   | none => [])

/-- The `in_where` state machine of `check_non_parameterized_where`:
`stripped = line.strip().upper()`; comment lines are skipped, `WHERE` enters
the clause, a terminator keyword leaves it (skipping that line's checks). -/
def whereAux : Bool → List (Nat × String) → List Diagnostic
  | _, [] => []
  | inW, (i, line) :: rest =>
    if strStarts (pyUpper (pyStrip line)) ("--") || strStarts (pyUpper (pyStrip line)) ("/*") ||
       strStarts (pyUpper (pyStrip line)) ("*") then
      whereAux inW rest
    else
      if inW || strContains (pyUpper (pyStrip line)) ("WHERE") then
        if whereTerminators.any (fun kw => strContains (pyUpper (pyStrip line)) kw) then
          whereAux false rest
        else
          whereLineDiags i line ++ whereAux true rest
      else whereAux (inW || strContains (pyUpper (pyStrip line)) ("WHERE")) rest

/-- `check_non_parameterized_where`. -/
def check_non_parameterized_where (content : String) : List Diagnostic :=
  whereAux false (enumFrom1 1 (pySplitlines content))

/-- The path filter of `sql_format_hook.main`: `.sql` files under a path
mentioning `Infrastructure`/`infrastructure`. -/
def sqlApplies (fp : String) : Bool :=
  strEnds fp (".sql") && (strContains fp ("Infrastructure") || strContains fp ("infrastructure"))

/-- The `warnings` list of `sql_format_hook.main`. -/
def sqlWarnings (content : String) : List Diagnostic :=
  check_header_comment content ++ check_parameter_documentation content

/-- The `blockers` list of `sql_format_hook.main`. -/
def sqlBlockers (content : String) : List Diagnostic :=
  check_string_concatenation content ++ check_non_parameterized_where content

/-- `sql_format_hook.main` after normalization: path filters, empty-content
short-circuit, then warnings (header, parameter docs) and blockers
(concatenation, WHERE literals); exit 2 iff any blocker. -/
def sqlRun (fp content : String) : HookOutput :=
  if !(strEnds fp (".sql")) then allowNothing
  else if !(strContains fp ("Infrastructure") || strContains fp ("infrastructure")) then allowNothing
  else if content = "" then allowNothing
  else
    ⟨if (sqlBlockers content).isEmpty then Decision.Allow else Decision.Block,
     sqlWarnings content ++ sqlBlockers content⟩

/-! ## openapi_contract_hook.py -/

/-- `os.path.basename` (POSIX): the text after the last `/`. -/
def pathBasename (fp : String) : String :=
  String.mk ((fp.data.reverse.takeWhile (fun c => c ≠ Char.ofNat 47)).reverse)

/-- `is_endpoint_file`: base name contains `Endpoint` and ends in `.cs`. -/
def is_endpoint_file (fp : String) : Bool :=
  let b := pathBasename fp
  strContains b ("Endpoint") && strEnds b (".cs")

def check_with_name (content : String) : List Diagnostic :=
  if !(strContains content (".WithName(")) then
    [⟨RuleId.apiWithName, Severity.WARN, none,
      ("  Endpoint missing .WithName() - required for OpenAPI operationId mapping")⟩]
  else []

def check_produces (content : String) : List Diagnostic :=
  if !(strContains content (".Produces<")) && !(strContains content (".Produces(")) then
    [⟨RuleId.apiProduces, Severity.WARN, none,
      ("  Endpoint missing .Produces<T>() declarations for response types")⟩]
  else []

def check_with_tags (content : String) : List Diagnostic :=
  if !(strContains content (".WithTags(")) then
    [⟨RuleId.apiWithTags, Severity.WARN, none,
      ("  Endpoint missing .WithTags() - required for OpenAPI tag grouping")⟩]
  else []

def check_summary_or_description (content : String) : List Diagnostic :=
  if !(strContains content (".WithSummary(")) && !(strContains content (".WithDescription(")) then
    [⟨RuleId.apiSummary, Severity.WARN, none,
      ("  Endpoint missing .WithSummary() or .WithDescription() for OpenAPI documentation")⟩]
  else []

def check_require_authorization (content : String) : List Diagnostic :=
  if !(strContains content (".RequireAuthorization(")) then
    [⟨RuleId.apiAuth, Severity.WARN, none,
      ("  Endpoint missing .RequireAuthorization() - all endpoints must have explicit authorization")⟩]
  else []

/-- `re.search(r'\(\s*\w*(Command|Query)\s+\w+\s*[,)]', content)`. -/
def reDirectParam : List Char → Bool
  | [] => false
  | c :: rest =>
    (c = Char.ofNat 40 &&
      (let r := eatWs0 rest
       let w := r.takeWhile pyIsWord
       let r2 := r.dropWhile pyIsWord
       (strEnds (String.mk w) ("Command") || strEnds (String.mk w) ("Query")) &&
       (match eatWs1 r2 with
        | some r3 =>
          (match eatWord1 r3 with
           | some (_, r4) =>
             (match eatWs0 r4 with
              | d :: _ => d = Char.ofNat 44 || d = Char.ofNat 41
              | [] => false)
           | none => false)
        | none => false))) || reDirectParam rest

def check_direct_command_query_parameter (content : String) : List Diagnostic :=
  if reDirectParam content.data then
    [⟨RuleId.apiDirectParam, Severity.WARN, none,
      ("  Consider using a generated DTO from the OpenAPI contract instead of the command/query directly")⟩]
  else []

/-- The six checks of `openapi_contract_hook.main`, in source order. -/
def openapiChecks (content : String) : List Diagnostic :=
  check_with_name content ++ check_produces content ++ check_with_tags content ++
  check_summary_or_description content ++ check_require_authorization content ++
  check_direct_command_query_parameter content

/-- `openapi_contract_hook.main` after normalization; never blocks. -/
def openapiRun (fp content : String) : HookOutput :=
  if !(is_endpoint_file fp) then allowNothing
  else if content = "" then allowNothing
  else ⟨Decision.Allow, openapiChecks content⟩

/-! ## serilog_enforcer_hook.py -/

/-- PII-sensitive name fragments (`PII_PATTERNS`). -/
def PII_PATTERNS : List String :=
  [("password"), ("passwd"), ("token"), ("secret"), ("creditcard"), ("credit_card"),
   ("creditcardnumber"), ("ssn"), ("socialsecurity"), ("social_security"),
   ("taxfilenumber"), ("tfn"), ("bankaccount"), ("bank_account"),
   ("apikey"), ("api_key"), ("privatekey"), ("private_key")]

/-- The method-name part of `LOGGER_CALL_PATTERN`:
`(?:Log(?:Information|...|Fatal)?|Information|...|Fatal|Verbose|Write)\s*\(`
(case-insensitive). -/
def logMethodAt (ms : List Char) : Bool :=
  let innerNames := [("Information"), ("Warning"), ("Error"), ("Critical"),
                     ("Debug"), ("Trace"), ("Fatal")]
  let parenAfter := fun (r : List Char) =>
    match eatWs0 r with
    | c :: _ => c = Char.ofNat 40
    | [] => false
  (match eatLitCI (String.data ("Log")) ms with
   | some r =>
     innerNames.any (fun n =>
       match eatLitCI (String.data n) r with
       | some r2 => parenAfter r2
       | none => false) || parenAfter r
   | none => false) ||
  (innerNames ++ [("Verbose"), ("Write")]).any (fun n =>
    match eatLitCI (String.data n) ms with
    | some r2 => parenAfter r2
    | none => false)

/-- `LOGGER_CALL_PATTERN` matched at one position:
`(?:_?[Ll]og(?:ger)?)\s*\.\s*<method>\s*\(` with `re.IGNORECASE`. -/
def matchLoggerCallAt (cs : List Char) : Bool :=
  let body := fun (start : List Char) =>
    match eatLitCI (String.data ("log")) start with
    | some r =>
      let r1 := match eatLitCI (String.data ("ger")) r with
                | some rr => rr
                | none => r
      (match eatWs0 r1 with
       | c :: r2 => c = Char.ofNat 46 && logMethodAt (eatWs0 r2)
       | [] => false)
    | none => false
  match cs with
  | c :: rest => if c = Char.ofNat 95 then body rest else body cs
  | [] => false

/-- `LOGGER_CALL_PATTERN.search(line)`. -/
def loggerCallSearch (line : String) : Bool :=
  scanWithPrev (fun _ cs => matchLoggerCallAt cs) none line.data

/-- `INTERPOLATION_PATTERN.search`: `(` or `,`, whitespace, `$"` or `$@"`. -/
def reInterp : List Char → Bool
  | [] => false
  | c :: rest =>
    ((c = Char.ofNat 40 || c = Char.ofNat 44) &&
      (match eatWs0 rest with
       | d :: r2 =>
         d = Char.ofNat 36 &&
         (match r2 with
          | e :: r3 =>
            e = Char.ofNat 34 ||
            (e = Char.ofNat 64 &&
              (match r3 with
               | f :: _ => f = Char.ofNat 34
               | [] => false))
          | [] => false)
       | [] => false)) || reInterp rest

/-- `check_string_interpolation`: interpolation on a logger-call line, or on
the immediately following line of a multi-line call. -/
def check_string_interpolation (content : String) : List Diagnostic :=
  let lines := pySplitlines content
  (List.range lines.length).flatMap (fun idx =>
    let line := lines.getD idx ("")
    let i := idx + 1
    let stripped := pyStrip line
    if strStarts stripped ("//") || strStarts stripped ("///") ||
       strStarts stripped ("/*") || strStarts stripped ("*") then []
    else if !(loggerCallSearch line) then []
    else if reInterp line.data then
      [⟨RuleId.logInterp, Severity.WARN, some i,
        ("  Line ") ++ toString i ++
        (": String interpolation ($\x22) detected in log call. Use Serilog message templates with \x7bPropertyName\x7d placeholders instead. Example: _logger.LogInformation(\x22Processing order \x7bOrderId\x7d\x22, orderId)")⟩]
    else if i < lines.length && reInterp (lines.getD i ("")).data then
      [⟨RuleId.logInterp, Severity.WARN, some (i + 1),
        ("  Line ") ++ toString (i + 1) ++
        (": String interpolation ($\x22) detected in multi-line log call. Use Serilog message templates with \x7bPropertyName\x7d placeholders instead.")⟩]
    else [])

/-- `re.findall(r'\{(\w+)\}', line)`: template placeholders, in scan order. -/
def findTemplateParamsAux : Nat → List Char → List String
  | 0, _ => []
  | _ + 1, [] => []
  | fuel + 1, c :: rest =>
    if c = Char.ofNat 123 then
      match eatWord1 rest with
      | some (w, r2) =>
        (match r2 with
         | d :: r3 =>
           if d = Char.ofNat 125 then String.mk w :: findTemplateParamsAux fuel r3
           else findTemplateParamsAux fuel rest
         | [] => [])
      | none => findTemplateParamsAux fuel rest
    else findTemplateParamsAux fuel rest

def findTemplateParams (cs : List Char) : List String :=
  findTemplateParamsAux cs.length cs

/-- `re.findall(r'\b(\w+)\s*:', line)`: colon-suffixed names, in scan order. -/
def findNamedArgsAux : Nat → Option Char → List Char → List String
  | 0, _, _ => []
  | _ + 1, _, [] => []
  | fuel + 1, prev, c :: rest =>
    if boundaryOk prev && pyIsWord c then
      let w := (c :: rest).takeWhile pyIsWord
      let r2 := (c :: rest).dropWhile pyIsWord
      match eatWs0 r2 with
      | d :: r3 =>
        if d = Char.ofNat 58 then String.mk w :: findNamedArgsAux fuel (some d) r3
        else findNamedArgsAux fuel (some c) rest
      | [] => []
    else findNamedArgsAux fuel (some c) rest

def findNamedArgs (cs : List Char) : List String :=
  findNamedArgsAux cs.length none cs

/-- The placeholder and named-argument PII warnings for one in-call line. -/
def piiLineDiags (i : Nat) (line : String) : List Diagnostic :=
  ((findTemplateParams line.data).flatMap (fun param =>
    if PII_PATTERNS.any (fun pii => strContains (pyLower param) pii) then
      [⟨RuleId.logPii, Severity.WARN, some i,
        ("  Line ") ++ toString i ++ (": PII-sensitive placeholder \x7b") ++ param ++
        ("\x7d found in log call. Never log sensitive data. Redact or remove this parameter.")⟩]
    else [])) ++
  ((findNamedArgs line.data).flatMap (fun arg =>
    if PII_PATTERNS.any (fun pii => strContains (pyLower arg) pii) then
      [⟨RuleId.logPii, Severity.WARN, some i,
        ("  Line ") ++ toString i ++ (": PII-sensitive named argument \x27") ++ arg ++
        ("\x27 found in log call. Never log sensitive data.")⟩]
    else []))

/-- `brace_depth += line.count("(") - line.count(")")`. -/
def piiDepthStep (depth0 : Int) (line : String) : Int :=
  depth0 + ((line.data.filter (fun c => c = Char.ofNat 40)).length : Int) -
    ((line.data.filter (fun c => c = Char.ofNat 41)).length : Int)

/-- The `in_log_call`/`brace_depth` state machine of `check_pii_parameters`:
a logger-call line (re)enters the call with depth 0; while in-call the depth
is updated and the line's PII warnings are emitted, leaving when the updated
depth is at most 0. -/
def piiAux : Bool → Int → List (Nat × String) → List Diagnostic
  | _, _, [] => []
  | inCall, depth, (i, line) :: rest =>
    if strStarts (pyStrip line) ("//") || strStarts (pyStrip line) ("///") ||
       strStarts (pyStrip line) ("/*") || strStarts (pyStrip line) ("*") then
      piiAux inCall depth rest
    else if loggerCallSearch line then
      piiLineDiags i line ++
        piiAux (!(piiDepthStep 0 line ≤ 0)) (piiDepthStep 0 line) rest
    else if inCall then
      piiLineDiags i line ++
        piiAux (!(piiDepthStep depth line ≤ 0)) (piiDepthStep depth line) rest
    else piiAux inCall depth rest

def check_pii_parameters (content : String) : List Diagnostic :=
  piiAux false 0 (enumFrom1 1 (pySplitlines content))

/-- `has_logger_usage`: quick bail-out test. -/
def has_logger_usage (content : String) : Bool :=
  let lower := pyLower content
  strContains lower ("log") &&
  (strContains lower ("_logger.") || strContains lower ("logger.") ||
   strContains lower ("log.") || strContains content ("Log."))

/-- `serilog_enforcer_hook.main` after normalization; never blocks. -/
def serilogRun (fp content : String) : HookOutput :=
  if !(strEnds fp (".cs")) then allowNothing
  else if content = "" then allowNothing
  else if !(has_logger_usage content) then allowNothing
  else ⟨Decision.Allow, check_string_interpolation content ++ check_pii_parameters content⟩

/-! ## layer_dependency_hook.py -/

/-- The four architecture layers. -/
inductive Layer
  | Domain
  | Application
  | Infrastructure
  | Api
deriving DecidableEq, Repr

/-- `LAYER_PATTERNS`, in the insertion order of the Python dict, which is the
order `detect_layer` iterates. -/
def LAYER_PATTERNS : List (Layer × List String) :=
  [(Layer.Domain, [(".Domain/"), (".Domain\\"), ("/Domain/"), ("\\Domain\\")]),
   (Layer.Application,
    [(".Application/"), (".Application\\"), ("/Application/"), ("\\Application\\")]),
   (Layer.Infrastructure,
    [(".Infrastructure/"), (".Infrastructure\\"), ("/Infrastructure/"), ("\\Infrastructure\\")]),
   (Layer.Api,
    [(".Api/"), (".Api\\"), (".API/"), (".API\\"), ("/Api/"), ("\\Api\\"), ("/API/"), ("\\API\\")])]

def DOMAIN_FORBIDDEN : List String :=
  [("Infrastructure"), ("Microsoft.AspNetCore"), ("Microsoft.EntityFrameworkCore"),
   ("Dapper"), ("System.Data"), ("Newtonsoft.Json"), ("System.Text.Json")]

def APPLICATION_FORBIDDEN : List String :=
  [("Infrastructure")]

def API_WARN_PATTERNS : List String :=
  [("Repository"), ("Repositories"), ("Persistence")]

/-- Does some path-segment pattern of this layer occur in the path? -/
def layerMatches (fp : String) (pats : List String) : Bool :=
  pats.any (fun p => strContains fp p)

def detectAux (fp : String) : List (Layer × List String) → Option Layer
  | [] => none
  | (L, pats) :: rest => if layerMatches fp pats then some L else detectAux fp rest

/-- `detect_layer`: first layer (in `LAYER_PATTERNS` order) with a matching
path pattern. -/
def detect_layer (fp : String) : Option Layer := detectAux fp LAYER_PATTERNS

/-- `re.match(r'^using\s+([\w.]+)\s*;', stripped)`, returning the captured
namespace. -/
def reUsing (stripped : List Char) : Option String :=
  match eatLit (String.data ("using")) stripped with
  | none => none
  | some r0 =>
    match eatWs1 r0 with
    | none => none
    | some r =>
      let isWD := fun (c : Char) => pyIsWord c || c = Char.ofNat 46
      let w := r.takeWhile isWD
      let r2 := r.dropWhile isWD
      if w.isEmpty then none
      else
        match eatWs0 r2 with
        | d :: _ => if d = Char.ofNat 59 then some (String.mk w) else none
        | [] => none

/-- `re.match(r'^using\s+\w+\s*=\s*([\w.]+)\s*;', stripped)`. -/
def reUsingAlias (stripped : List Char) : Option String :=
  match eatLit (String.data ("using")) stripped with
  | none => none
  | some r0 =>
    match eatWs1 r0 with
    | none => none
    | some r =>
      match eatWord1 r with
      | none => none
      | some (_, r1) =>
        match eatWs0 r1 with
        | d :: r2 =>
          if d = Char.ofNat 61 then
            let r3 := eatWs0 r2
            let isWD := fun (c : Char) => pyIsWord c || c = Char.ofNat 46
            let w := r3.takeWhile isWD
            let r4 := r3.dropWhile isWD
            if w.isEmpty then none
            else
              match eatWs0 r4 with
              | e :: _ => if e = Char.ofNat 59 then some (String.mk w) else none
              | [] => none
          else none
        | [] => none

/-- `extract_usings`: `(line, namespace)` pairs for direct and aliased using
directives. -/
def extract_usings (content : String) : List (Nat × String) :=
  (enumFrom1 1 (pySplitlines content)).flatMap (fun p =>
    let stripped := pyStrip p.2
    (match reUsing stripped.data with
     | some ns => [(p.1, ns)]
     | none => []) ++
    (match reUsingAlias stripped.data with
     | some ns => [(p.1, ns)]
     | none => []))

/-- `check_domain_layer` (the unused `file_path` parameter is dropped):
substring match against `DOMAIN_FORBIDDEN`, BLOCK. -/
def check_domain_layer (usings : List (Nat × String)) : List Diagnostic :=
  usings.flatMap (fun u =>
    DOMAIN_FORBIDDEN.flatMap (fun forbidden =>
      if strContains u.2 forbidden then
        [⟨RuleId.layerDomain, Severity.BLOCK, some u.1,
          ("  Line ") ++ toString u.1 ++ (": Domain layer cannot reference \x27") ++ u.2 ++
          ("\x27. Domain must be pure -- no infrastructure, ORM, ASP.NET, or serialization dependencies.")⟩]
      else []))

/-- `check_application_layer`: `Infrastructure` must occur as a standalone
dot-delimited segment of the namespace, BLOCK. -/
def check_application_layer (usings : List (Nat × String)) : List Diagnostic :=
  usings.flatMap (fun u =>
    APPLICATION_FORBIDDEN.flatMap (fun forbidden =>
      if (pySplitDot u.2).contains forbidden then
        [⟨RuleId.layerApplication, Severity.BLOCK, some u.1,
          ("  Line ") ++ toString u.1 ++ (": Application layer cannot reference \x27") ++ u.2 ++
          ("\x27. Application must not depend on Infrastructure. Use interfaces defined in Application.")⟩]
      else []))

/-- `check_api_layer`: substring match against repository/persistence
markers, WARN only. -/
def check_api_layer (usings : List (Nat × String)) : List Diagnostic :=
  usings.flatMap (fun u =>
    API_WARN_PATTERNS.flatMap (fun pat =>
      if strContains u.2 pat then
        [⟨RuleId.layerApi, Severity.WARN, some u.1,
          ("  Line ") ++ toString u.1 ++ (": API layer references \x27") ++ u.2 ++
          ("\x27. Endpoints should dispatch via IMessageBus, not call repositories directly.")⟩]
      else []))

/-- Violations for the detected layer; Infrastructure has no outbound check. -/
def layerViolations (layer : Layer) (usings : List (Nat × String)) : List Diagnostic :=
  match layer with
  | Layer.Domain => check_domain_layer usings
  | Layer.Application => check_application_layer usings
  | Layer.Api => check_api_layer usings
  | Layer.Infrastructure => []

/-- `layer_dependency_hook.main` after normalization: exit 2 iff some
violation is tagged BLOCK. -/
def layerRun (fp content : String) : HookOutput :=
  if !(strEnds fp (".cs")) then allowNothing
  else if content = "" then allowNothing
  else
    match detect_layer fp with
    | none => allowNothing
    | some layer =>
      if (extract_usings content).isEmpty then allowNothing
      else if (layerViolations layer (extract_usings content)).isEmpty then allowNothing
      else
        ⟨if (layerViolations layer (extract_usings content)).any
            (fun d => d.severity == Severity.BLOCK) then Decision.Block
          else Decision.Allow,
         layerViolations layer (extract_usings content)⟩

/-! ## The JSON shell shared by all five hooks

`extract_file_and_content` is identical in every hook.  `Json` models the
parsed stdin payload (`none` at the `main` entries models stdin that fails
`json.loads`); `Except.error ()` models an uncaught Python exception
(`AttributeError`/`TypeError`), which makes the process die with a traceback
instead of exiting 0 or 2. -/

inductive Json
  | null
  | bool (b : Bool)
  | num (n : Int)
  | str (s : String)
  | arr (elems : List Json)
  | obj (fields : List (String × Json))

/-- `dict.get(k)`: first binding wins (JSON objects have unique keys). -/
def dictGet (kvs : List (String × Json)) (k : String) : Option Json :=
  (kvs.find? (fun kv => kv.1 == k)).map (fun kv => kv.2)

/-- Python `value == "literal"` for a payload value. -/
def jsonIsStr (j : Json) (s : String) : Bool :=
  match j with
  | Json.str t => t == s
  | _ => false

/-- Python truthiness of a payload value (`if not content:`). -/
def jsonTruthy : Json → Bool
  | Json.null => false
  | Json.bool b => b
  | Json.num n => !(n == 0)
  | Json.str s => !(s == "")
  | Json.arr xs => !xs.isEmpty
  | Json.obj kvs => !kvs.isEmpty

/-- A string-typed value, or the exception a `str` method would raise. -/
def jsonAsStr : Json → Except Unit String
  | Json.str s => Except.ok s
  | _ => Except.error ()

/-- The `new_string` fields of a MultiEdit `edits` list;
`Except.error` where `e.get` or `"\n".join` would raise. -/
def editStrings : List Json → Except Unit (List String)
  | [] => Except.ok []
  | Json.obj e :: rest =>
    (match (dictGet e ("new_string")).getD (Json.str ("")) with
     | Json.str s => (editStrings rest).map (fun l => s :: l)
     | _ => Except.error ())
  | _ :: _ => Except.error ()

/-- `extract_file_and_content(payload)`: the `(file_path, content)` pair as
raw payload values, or the exception Python would raise.  Iterating a
non-list `edits` value raises unless the value is an empty string or empty
dict (whose iterations are empty, so the join yields `""`). -/
def extract_file_and_content (payload : Json) : Except Unit (Json × Json) :=
  match payload with
  | Json.obj kvs =>
    let tool_name := (dictGet kvs ("tool_name")).getD (Json.str (""))
    (match (dictGet kvs ("tool_input")).getD (Json.obj []) with
     | Json.obj ti =>
       let file_path := (dictGet ti ("file_path")).getD (Json.str (""))
       if jsonIsStr tool_name ("Write") then
         Except.ok (file_path, (dictGet ti ("content")).getD (Json.str ("")))
       else if jsonIsStr tool_name ("Edit") then
         Except.ok (file_path, (dictGet ti ("new_string")).getD (Json.str ("")))
       else if jsonIsStr tool_name ("MultiEdit") then
         (match (dictGet ti ("edits")).getD (Json.arr []) with
          | Json.arr es =>
            (editStrings es).map (fun l => (file_path, Json.str (String.intercalate ("\n") l)))
          | Json.str s =>
            if s == "" then Except.ok (file_path, Json.str ("")) else Except.error ()
          | Json.obj e2 =>
            if e2.isEmpty then Except.ok (file_path, Json.str ("")) else Except.error ()
          | _ => Except.error ())
       else Except.ok (file_path, Json.str (""))
     | _ => Except.error ())
  | _ => Except.error ()

/-- `sql_format_hook.main`: parse, normalize, filter, run. -/
def sqlMain : Option Json → Except Unit HookOutput
  | none => Except.ok allowNothing
  | some payload =>
    match extract_file_and_content payload with
    | Except.error e => Except.error e
    | Except.ok (fpj, cj) =>
      match jsonAsStr fpj with
      | Except.error e => Except.error e
      | Except.ok fp =>
        if !(strEnds fp (".sql")) then Except.ok allowNothing
        else if !(strContains fp ("Infrastructure") || strContains fp ("infrastructure")) then
          Except.ok allowNothing
        else if !(jsonTruthy cj) then Except.ok allowNothing
        else
          match jsonAsStr cj with
          | Except.error e => Except.error e
          | Except.ok content => Except.ok (sqlRun fp content)

/-- `coding_standards_hook.main`. -/
def codingMain : Option Json → Except Unit HookOutput
  | none => Except.ok allowNothing
  | some payload =>
    match extract_file_and_content payload with
    | Except.error e => Except.error e
    | Except.ok (fpj, cj) =>
      match jsonAsStr fpj with
      | Except.error e => Except.error e
      | Except.ok fp =>
        if !(strEnds fp (".cs")) then Except.ok allowNothing
        else if !(jsonTruthy cj) then Except.ok allowNothing
        else
          match jsonAsStr cj with
          | Except.error e => Except.error e
          | Except.ok content => Except.ok (codingRun fp content)

/-- `openapi_contract_hook.main`. -/
def openapiMain : Option Json → Except Unit HookOutput
  | none => Except.ok allowNothing
  | some payload =>
    match extract_file_and_content payload with
    | Except.error e => Except.error e
    | Except.ok (fpj, cj) =>
      match jsonAsStr fpj with
      | Except.error e => Except.error e
      | Except.ok fp =>
        if !(is_endpoint_file fp) then Except.ok allowNothing
        else if !(jsonTruthy cj) then Except.ok allowNothing
        else
          match jsonAsStr cj with
          | Except.error e => Except.error e
          | Except.ok content => Except.ok (openapiRun fp content)

/-- `serilog_enforcer_hook.main`. -/
def serilogMain : Option Json → Except Unit HookOutput
  | none => Except.ok allowNothing
  | some payload =>
    match extract_file_and_content payload with
    | Except.error e => Except.error e
    | Except.ok (fpj, cj) =>
      match jsonAsStr fpj with
      | Except.error e => Except.error e
      | Except.ok fp =>
        if !(strEnds fp (".cs")) then Except.ok allowNothing
        else if !(jsonTruthy cj) then Except.ok allowNothing
        else
          match jsonAsStr cj with
          | Except.error e => Except.error e
          | Except.ok content => Except.ok (serilogRun fp content)

/-- `layer_dependency_hook.main`: note `detect_layer` runs before the content
is used as a string, mirroring the source order. -/
def layerMain : Option Json → Except Unit HookOutput
  | none => Except.ok allowNothing
  | some payload =>
    match extract_file_and_content payload with
    | Except.error e => Except.error e
    | Except.ok (fpj, cj) =>
      match jsonAsStr fpj with
      | Except.error e => Except.error e
      | Except.ok fp =>
        if !(strEnds fp (".cs")) then Except.ok allowNothing
        else if !(jsonTruthy cj) then Except.ok allowNothing
        else
          match detect_layer fp with
          | none => Except.ok allowNothing
          | some _ =>
            match jsonAsStr cj with
            | Except.error e => Except.error e
            | Except.ok content => Except.ok (layerRun fp content)

/-! ## Auxiliary definitions used by the verification statements -/

/-- `tool_input.file_path` is absent or a string (so `endswith` and
`os.path.basename` cannot raise on it). -/
def benignFilePath : List (String × Json) → Bool
  | ti =>
    match dictGet ti ("file_path") with
    | none => true
    | some (Json.str _) => true
    | some _ => false

/-- `tool_input.file_path` is absent or the empty string (the event carries
no path). -/
def benignEmptyPath : List (String × Json) → Bool
  | ti =>
    match dictGet ti ("file_path") with
    | none => true
    | some (Json.str s) => s == ""
    | some _ => false

/-- Payloads that are valid JSON yet carry nothing to check, and on which the
normalization provably cannot raise: an object whose `tool_input` (if
present) is an object and whose `file_path` (if present) is a string, and
which either names none of the three edit shapes (`Write`/`Edit`/`MultiEdit`)
or is a `Write`/`Edit` whose path is absent or empty. -/
def benignPayload : Json → Bool
  | Json.obj kvs =>
    (match (dictGet kvs ("tool_input")).getD (Json.obj []) with
     | Json.obj ti =>
       benignFilePath ti &&
       ((!(jsonIsStr ((dictGet kvs ("tool_name")).getD (Json.str (""))) ("Write")) &&
         !(jsonIsStr ((dictGet kvs ("tool_name")).getD (Json.str (""))) ("Edit")) &&
         !(jsonIsStr ((dictGet kvs ("tool_name")).getD (Json.str (""))) ("MultiEdit"))) ||
        ((jsonIsStr ((dictGet kvs ("tool_name")).getD (Json.str (""))) ("Write") ||
          jsonIsStr ((dictGet kvs ("tool_name")).getD (Json.str (""))) ("Edit")) &&
         benignEmptyPath ti))
     | _ => false)
  | _ => false

/-- The canonical layer order `Domain → Application → Infrastructure → Api`. -/
def layerOrder : List Layer :=
  [Layer.Domain, Layer.Application, Layer.Infrastructure, Layer.Api]

/-- Position of a layer in the canonical order. -/
def layerRank : Layer → Nat
  | Layer.Domain => 0
  | Layer.Application => 1
  | Layer.Infrastructure => 2
  | Layer.Api => 3

/-- The path patterns of one layer (the value `LAYER_PATTERNS[layer]`). -/
def layerPatternsOf : Layer → List String
  | Layer.Domain => [(".Domain/"), (".Domain\\"), ("/Domain/"), ("\\Domain\\")]
  | Layer.Application =>
    [(".Application/"), (".Application\\"), ("/Application/"), ("\\Application\\")]
  | Layer.Infrastructure =>
    [(".Infrastructure/"), (".Infrastructure\\"), ("/Infrastructure/"), ("\\Infrastructure\\")]
  | Layer.Api =>
    [(".Api/"), (".Api\\"), (".API/"), (".API\\"), ("/Api/"), ("\\Api\\"), ("/API/"), ("\\API\\")]

/-- Sample SQL path under `Infrastructure/`. -/
def sqlPathX : String := "Infrastructure/Queries/GetUsers.sql"

/-- WHERE-clause sample: boolean-like equality `status = 0`. -/
def sqlZero : String := "-- status filter\nSELECT * FROM Users WHERE status = 0"

/-- WHERE-clause sample: numeric literal `status = 2`. -/
def sqlTwo : String := "-- status filter\nSELECT * FROM Users WHERE status = 2"

/-- WHERE-clause sample: string literal `name = 'bob'`. -/
def sqlBob : String := "-- name filter\nSELECT * FROM Users WHERE name = \x27bob\x27"

/-- Sample endpoint file path (`*Endpoint*.cs`). -/
def endpointPath : String := "Orders/CreateOrderEndpoint.cs"

/-- Endpoint body with none of the five builder markers and a direct
`(OrderCommand command)` parameter. -/
def endpointBody : String := "app.MapPost(route, (OrderCommand command) => Handle(command));"

/-- Sample C# path for the coding-standards hook. -/
def fooCommandPath : String := "Commands/Foo.cs"

/-- A documented `public class FooCommand` declaration. -/
def fooCommandBody : String :=
  "/// <summary>Creates Foo.</summary>\npublic class FooCommand\n\x7b\n\x7d"

/-- Sample path inside an `.Application/` segment. -/
def appPath : String := "src/MyApp.Application/Handlers/Foo.cs"

/-- The diagnostic `check_non_parameterized_where` emits for `sqlTwo`. -/
def sqlTwoDiag : Diagnostic :=
  ⟨RuleId.sqlWhere, Severity.BLOCK, some 2,
   ("  Line 2: Hardcoded numeric literal (2) in WHERE clause. Use a @-prefixed parameter instead.")⟩

/-! ## Shape lemmas: the severity, rule and line each check can emit -/

lemma mem_enumFrom1 {n : Nat} {xs : List String} {p : Nat × String}
    (h : p ∈ enumFrom1 n xs) : n ≤ p.1 ∧ p.1 < n + xs.length := by
  induction xs generalizing n with
  | nil => simp [enumFrom1] at h
  | cons x xs ih =>
    rw [enumFrom1] at h
    rcases List.mem_cons.mp h with h1 | h1
    · subst h1
      show n ≤ n ∧ n < n + (x :: xs).length
      simp only [List.length_cons]
      omega
    · have := ih h1
      simp only [List.length_cons]
      omega

lemma check_var_usage_shape {c : String} {d : Diagnostic}
    (h : d ∈ check_var_usage c) :
    d.rule = RuleId.varUsage ∧ d.severity = Severity.WARN ∧
    ∃ n, d.line = some n ∧ 1 ≤ n ∧ n ≤ (pySplitlines c).length := by
  simp only [check_var_usage, List.mem_flatMap] at h
  obtain ⟨p, hp, hd⟩ := h
  have hb := mem_enumFrom1 hp
  split at hd
  · simp at hd
  · split at hd
    · simp at hd
    · split at hd
      · simp at hd
        subst hd
        exact ⟨rfl, rfl, p.1, rfl, by omega, by omega⟩
      · simp at hd

lemma check_xml_docs_shape {c : String} {d : Diagnostic}
    (h : d ∈ check_xml_docs c) :
    d.rule = RuleId.xmlDocs ∧ d.severity = Severity.WARN ∧
    ∃ n, d.line = some n ∧ 1 ≤ n ∧ n ≤ (pySplitlines c).length := by
  simp only [check_xml_docs, List.mem_flatMap, List.mem_range] at h
  obtain ⟨i, hi, hd⟩ := h
  rcases List.mem_append.mp hd with hd1 | hd1 <;>
    (split at hd1
     · simp at hd1
       subst hd1
       exact ⟨rfl, rfl, i + 1, rfl, by omega, by omega⟩
     · simp at hd1)

lemma check_cancellation_token_shape {c : String} {d : Diagnostic}
    (h : d ∈ check_cancellation_token c) :
    d.rule = RuleId.cancellationToken ∧ d.severity = Severity.WARN ∧
    ∃ n, d.line = some n ∧ 1 ≤ n ∧ n ≤ (pySplitlines c).length := by
  simp only [check_cancellation_token, List.mem_flatMap] at h
  obtain ⟨p, hp, hd⟩ := h
  have hb := mem_enumFrom1 hp
  split at hd
  · split at hd
    · simp at hd
      subst hd
      exact ⟨rfl, rfl, p.1, rfl, by omega, by omega⟩
    · simp at hd
  · simp at hd

lemma check_sealed_record_shape {c : String} {d : Diagnostic}
    (h : d ∈ check_sealed_record c) :
    d.rule = RuleId.sealedRecord ∧ d.severity = Severity.WARN ∧
    ∃ n, d.line = some n ∧ 1 ≤ n ∧ n ≤ (pySplitlines c).length := by
  simp only [check_sealed_record, List.mem_flatMap] at h
  obtain ⟨p, hp, hd⟩ := h
  have hb := mem_enumFrom1 hp
  split at hd
  · split at hd
    · simp at hd
      subst hd
      exact ⟨rfl, rfl, p.1, rfl, by omega, by omega⟩
    · simp at hd
  · simp at hd

lemma codingChecks_shape {c : String} {d : Diagnostic}
    (h : d ∈ codingChecks c) :
    d.severity = Severity.WARN ∧
    ∃ n, d.line = some n ∧ 1 ≤ n ∧ n ≤ (pySplitlines c).length := by
  unfold codingChecks at h
  rcases List.mem_append.mp h with h1 | h1
  · rcases List.mem_append.mp h1 with h2 | h2
    · rcases List.mem_append.mp h2 with h3 | h3
      · exact (check_var_usage_shape h3).2
      · exact (check_xml_docs_shape h3).2
    · exact (check_cancellation_token_shape h2).2
  · exact (check_sealed_record_shape h1).2

lemma check_header_comment_shape {c : String} {d : Diagnostic}
    (h : d ∈ check_header_comment c) :
    d.rule = RuleId.sqlHeader ∧ d.severity = Severity.WARN ∧ d.line = none := by
  unfold check_header_comment at h
  split at h
  · simp at h
    subst h
    exact ⟨rfl, rfl, rfl⟩
  · simp at h

lemma check_parameter_documentation_shape {c : String} {d : Diagnostic}
    (h : d ∈ check_parameter_documentation c) :
    d.rule = RuleId.sqlParamDoc ∧ d.severity = Severity.WARN ∧ d.line = none := by
  unfold check_parameter_documentation at h
  split at h
  · simp at h
  · split at h
    · simp at h
    · simp at h
      subst h
      exact ⟨rfl, rfl, rfl⟩

lemma check_string_concatenation_shape {c : String} {d : Diagnostic}
    (h : d ∈ check_string_concatenation c) :
    d.rule = RuleId.sqlConcat ∧ d.severity = Severity.BLOCK ∧
    ∃ n, d.line = some n ∧ 1 ≤ n ∧ n ≤ (pySplitlines c).length := by
  simp only [check_string_concatenation, List.mem_flatMap] at h
  obtain ⟨p, hp, hd⟩ := h
  have hb := mem_enumFrom1 hp
  split at hd
  · simp at hd
  · rcases List.mem_append.mp hd with hd1 | hd1
    · rcases List.mem_append.mp hd1 with hd2 | hd2 <;>
        (split at hd2
         · simp at hd2
           subst hd2
           exact ⟨rfl, rfl, p.1, rfl, by omega, by omega⟩
         · simp at hd2)
    · split at hd1
      · simp at hd1
        subst hd1
        exact ⟨rfl, rfl, p.1, rfl, by omega, by omega⟩
      · simp at hd1

lemma whereLineDiags_shape {i : Nat} {l : String} {d : Diagnostic}
    (h : d ∈ whereLineDiags i l) :
    d.rule = RuleId.sqlWhere ∧ d.severity = Severity.BLOCK ∧ d.line = some i := by
  unfold whereLineDiags at h
  rcases List.mem_append.mp h with h1 | h1
  · split at h1
    · simp at h1
      subst h1
      exact ⟨rfl, rfl, rfl⟩
    · simp at h1
  · split at h1
    · split at h1
      · simp at h1
        subst h1
        exact ⟨rfl, rfl, rfl⟩
      · simp at h1
    · simp at h1

lemma whereAux_shape : ∀ (ps : List (Nat × String)) (st : Bool) (d : Diagnostic),
    d ∈ whereAux st ps →
    d.rule = RuleId.sqlWhere ∧ d.severity = Severity.BLOCK ∧
    ∃ p ∈ ps, d.line = some p.1 := by
  intro ps
  induction ps with
  | nil => intro st d h; simp [whereAux] at h
  | cons q rest ih =>
    intro st d h
    obtain ⟨i, l⟩ := q
    rw [whereAux] at h
    split at h
    · obtain ⟨h1, h2, p, hp, h3⟩ := ih _ _ h
      exact ⟨h1, h2, p, List.mem_cons_of_mem _ hp, h3⟩
    · split at h
      · split at h
        · obtain ⟨h1, h2, p, hp, h3⟩ := ih _ _ h
          exact ⟨h1, h2, p, List.mem_cons_of_mem _ hp, h3⟩
        · rcases List.mem_append.mp h with h1 | h1
          · obtain ⟨h2, h3, h4⟩ := whereLineDiags_shape h1
            exact ⟨h2, h3, (i, l), List.mem_cons_self _ _, h4⟩
          · obtain ⟨h1', h2', p, hp, h3⟩ := ih _ _ h1
            exact ⟨h1', h2', p, List.mem_cons_of_mem _ hp, h3⟩
      · obtain ⟨h1, h2, p, hp, h3⟩ := ih _ _ h
        exact ⟨h1, h2, p, List.mem_cons_of_mem _ hp, h3⟩

lemma check_non_parameterized_where_shape {c : String} {d : Diagnostic}
    (h : d ∈ check_non_parameterized_where c) :
    d.rule = RuleId.sqlWhere ∧ d.severity = Severity.BLOCK ∧
    ∃ n, d.line = some n ∧ 1 ≤ n ∧ n ≤ (pySplitlines c).length := by
  obtain ⟨h1, h2, p, hp, h3⟩ := whereAux_shape _ _ _ h
  have hb := mem_enumFrom1 hp
  exact ⟨h1, h2, p.1, h3, by omega, by omega⟩

lemma openapiChecks_shape {c : String} {d : Diagnostic}
    (h : d ∈ openapiChecks c) :
    d.severity = Severity.WARN ∧ d.line = none ∧
    (d.rule = RuleId.apiWithName ∨ d.rule = RuleId.apiProduces ∨ d.rule = RuleId.apiWithTags ∨
     d.rule = RuleId.apiSummary ∨ d.rule = RuleId.apiAuth ∨ d.rule = RuleId.apiDirectParam) := by
  unfold openapiChecks at h
  rcases List.mem_append.mp h with h1 | h1
  · rcases List.mem_append.mp h1 with h2 | h2
    · rcases List.mem_append.mp h2 with h3 | h3
      · rcases List.mem_append.mp h3 with h4 | h4
        · rcases List.mem_append.mp h4 with h5 | h5
          · unfold check_with_name at h5
            split at h5
            · simp at h5; subst h5; exact ⟨rfl, rfl, Or.inl rfl⟩
            · simp at h5
          · unfold check_produces at h5
            split at h5
            · simp at h5; subst h5; exact ⟨rfl, rfl, Or.inr (Or.inl rfl)⟩
            · simp at h5
        · unfold check_with_tags at h4
          split at h4
          · simp at h4; subst h4; exact ⟨rfl, rfl, Or.inr (Or.inr (Or.inl rfl))⟩
          · simp at h4
      · unfold check_summary_or_description at h3
        split at h3
        · simp at h3; subst h3; exact ⟨rfl, rfl, Or.inr (Or.inr (Or.inr (Or.inl rfl)))⟩
        · simp at h3
    · unfold check_require_authorization at h2
      split at h2
      · simp at h2; subst h2; exact ⟨rfl, rfl, Or.inr (Or.inr (Or.inr (Or.inr (Or.inl rfl))))⟩
      · simp at h2
  · unfold check_direct_command_query_parameter at h1
    split at h1
    · simp at h1; subst h1; exact ⟨rfl, rfl, Or.inr (Or.inr (Or.inr (Or.inr (Or.inr rfl))))⟩
    · simp at h1

lemma check_string_interpolation_shape {c : String} {d : Diagnostic}
    (h : d ∈ check_string_interpolation c) :
    d.rule = RuleId.logInterp ∧ d.severity = Severity.WARN ∧
    ∃ n, d.line = some n ∧ 1 ≤ n ∧ n ≤ (pySplitlines c).length := by
  simp only [check_string_interpolation, List.mem_flatMap, List.mem_range] at h
  obtain ⟨i, hi, hd⟩ := h
  split at hd
  · simp at hd
  · split at hd
    · simp at hd
    · split at hd
      · simp at hd
        subst hd
        exact ⟨rfl, rfl, i + 1, rfl, by omega, by omega⟩
      · split at hd
        · rename_i hcond
          simp at hd
          subst hd
          simp only [Bool.and_eq_true, decide_eq_true_eq] at hcond
          exact ⟨rfl, rfl, i + 2, rfl, by omega, by omega⟩
        · simp at hd

lemma piiLineDiags_shape {i : Nat} {l : String} {d : Diagnostic}
    (h : d ∈ piiLineDiags i l) :
    d.rule = RuleId.logPii ∧ d.severity = Severity.WARN ∧ d.line = some i := by
  unfold piiLineDiags at h
  rcases List.mem_append.mp h with h1 | h1 <;>
    (rw [List.mem_flatMap] at h1
     obtain ⟨x, hx, hd⟩ := h1
     split at hd
     · simp at hd
       subst hd
       exact ⟨rfl, rfl, rfl⟩
     · simp at hd)

lemma piiAux_shape : ∀ (ps : List (Nat × String)) (st : Bool) (dep : Int) (d : Diagnostic),
    d ∈ piiAux st dep ps →
    d.rule = RuleId.logPii ∧ d.severity = Severity.WARN ∧
    ∃ p ∈ ps, d.line = some p.1 := by
  intro ps
  induction ps with
  | nil => intro st dep d h; simp [piiAux] at h
  | cons q rest ih =>
    intro st dep d h
    obtain ⟨i, l⟩ := q
    rw [piiAux] at h
    split at h
    · obtain ⟨h1, h2, p, hp, h3⟩ := ih _ _ _ h
      exact ⟨h1, h2, p, List.mem_cons_of_mem _ hp, h3⟩
    · split at h
      · rcases List.mem_append.mp h with h1 | h1
        · obtain ⟨h2, h3, h4⟩ := piiLineDiags_shape h1
          exact ⟨h2, h3, (i, l), List.mem_cons_self _ _, h4⟩
        · obtain ⟨h1', h2', p, hp, h3⟩ := ih _ _ _ h1
          exact ⟨h1', h2', p, List.mem_cons_of_mem _ hp, h3⟩
      · split at h
        · rcases List.mem_append.mp h with h1 | h1
          · obtain ⟨h2, h3, h4⟩ := piiLineDiags_shape h1
            exact ⟨h2, h3, (i, l), List.mem_cons_self _ _, h4⟩
          · obtain ⟨h1', h2', p, hp, h3⟩ := ih _ _ _ h1
            exact ⟨h1', h2', p, List.mem_cons_of_mem _ hp, h3⟩
        · obtain ⟨h1, h2, p, hp, h3⟩ := ih _ _ _ h
          exact ⟨h1, h2, p, List.mem_cons_of_mem _ hp, h3⟩

lemma check_pii_parameters_shape {c : String} {d : Diagnostic}
    (h : d ∈ check_pii_parameters c) :
    d.rule = RuleId.logPii ∧ d.severity = Severity.WARN ∧
    ∃ n, d.line = some n ∧ 1 ≤ n ∧ n ≤ (pySplitlines c).length := by
  obtain ⟨h1, h2, p, hp, h3⟩ := piiAux_shape _ _ _ _ h
  have hb := mem_enumFrom1 hp
  exact ⟨h1, h2, p.1, h3, by omega, by omega⟩

lemma extract_usings_bounds {c : String} {u : Nat × String}
    (h : u ∈ extract_usings c) : 1 ≤ u.1 ∧ u.1 ≤ (pySplitlines c).length := by
  simp only [extract_usings, List.mem_flatMap] at h
  obtain ⟨p, hp, hd⟩ := h
  have hb := mem_enumFrom1 hp
  rcases List.mem_append.mp hd with h1 | h1 <;>
    (split at h1
     · simp at h1
       subst h1
       exact ⟨by omega, by omega⟩
     · simp at h1)

lemma check_domain_layer_shape {us : List (Nat × String)} {d : Diagnostic}
    (h : d ∈ check_domain_layer us) :
    d.rule = RuleId.layerDomain ∧ d.severity = Severity.BLOCK ∧
    ∃ u ∈ us, d.line = some u.1 := by
  simp only [check_domain_layer, List.mem_flatMap] at h
  obtain ⟨u, hu, h1⟩ := h
  obtain ⟨f, _, h2⟩ := h1
  split at h2
  · simp at h2
    subst h2
    exact ⟨rfl, rfl, u, hu, rfl⟩
  · simp at h2

lemma check_application_layer_shape {us : List (Nat × String)} {d : Diagnostic}
    (h : d ∈ check_application_layer us) :
    d.rule = RuleId.layerApplication ∧ d.severity = Severity.BLOCK ∧
    ∃ u ∈ us, d.line = some u.1 := by
  simp only [check_application_layer, List.mem_flatMap] at h
  obtain ⟨u, hu, h1⟩ := h
  obtain ⟨f, _, h2⟩ := h1
  split at h2
  · simp at h2
    subst h2
    exact ⟨rfl, rfl, u, hu, rfl⟩
  · simp at h2

lemma check_api_layer_shape {us : List (Nat × String)} {d : Diagnostic}
    (h : d ∈ check_api_layer us) :
    d.rule = RuleId.layerApi ∧ d.severity = Severity.WARN ∧
    ∃ u ∈ us, d.line = some u.1 := by
  simp only [check_api_layer, List.mem_flatMap] at h
  obtain ⟨u, hu, h1⟩ := h
  obtain ⟨f, _, h2⟩ := h1
  split at h2
  · simp at h2
    subst h2
    exact ⟨rfl, rfl, u, hu, rfl⟩
  · simp at h2

lemma layerViolations_shape {L : Layer} {us : List (Nat × String)} {d : Diagnostic}
    (h : d ∈ layerViolations L us) :
    (d.rule = RuleId.layerDomain ∨ d.rule = RuleId.layerApplication ∨ d.rule = RuleId.layerApi) ∧
    (d.severity = Severity.BLOCK → d.rule = RuleId.layerDomain ∨ d.rule = RuleId.layerApplication) ∧
    ∃ u ∈ us, d.line = some u.1 := by
  cases L with
  | Domain =>
    obtain ⟨h1, h2, h3⟩ := check_domain_layer_shape h
    exact ⟨Or.inl h1, fun _ => Or.inl h1, h3⟩
  | Application =>
    obtain ⟨h1, h2, h3⟩ := check_application_layer_shape h
    exact ⟨Or.inr (Or.inl h1), fun _ => Or.inr h1, h3⟩
  | Api =>
    obtain ⟨h1, h2, h3⟩ := check_api_layer_shape h
    exact ⟨Or.inr (Or.inr h1), fun hb => absurd (h2 ▸ hb) (by simp), h3⟩
  | Infrastructure => simp [layerViolations] at h

/-! ## Hook-level lemmas -/

lemma sqlWarnings_shape {c : String} {d : Diagnostic}
    (h : d ∈ sqlWarnings c) :
    d.severity = Severity.WARN ∧ d.line = none ∧
    (d.rule = RuleId.sqlHeader ∨ d.rule = RuleId.sqlParamDoc) := by
  rcases List.mem_append.mp h with h1 | h1
  · obtain ⟨h2, h3, h4⟩ := check_header_comment_shape h1
    exact ⟨h3, h4, Or.inl h2⟩
  · obtain ⟨h2, h3, h4⟩ := check_parameter_documentation_shape h1
    exact ⟨h3, h4, Or.inr h2⟩

lemma sqlBlockers_shape {c : String} {d : Diagnostic}
    (h : d ∈ sqlBlockers c) :
    d.severity = Severity.BLOCK ∧
    (d.rule = RuleId.sqlConcat ∨ d.rule = RuleId.sqlWhere) ∧
    ∃ n, d.line = some n ∧ 1 ≤ n ∧ n ≤ (pySplitlines c).length := by
  rcases List.mem_append.mp h with h1 | h1
  · obtain ⟨h2, h3, h4⟩ := check_string_concatenation_shape h1
    exact ⟨h3, Or.inl h2, h4⟩
  · obtain ⟨h2, h3, h4⟩ := check_non_parameterized_where_shape h1
    exact ⟨h3, Or.inr h2, h4⟩

lemma block_iff_gen (W B : List Diagnostic)
    (hw : ∀ d ∈ W, d.severity = Severity.WARN)
    (hb : ∀ d ∈ B, d.severity = Severity.BLOCK) :
    ((if B.isEmpty then Decision.Allow else Decision.Block) = Decision.Block ↔
      ∃ d ∈ W ++ B, d.severity = Severity.BLOCK) := by
  cases B with
  | nil =>
    simp only [List.isEmpty_nil, if_true, List.append_nil]
    constructor
    · intro h; exact Decision.noConfusion h
    · rintro ⟨d, hd, hs⟩
      rw [hw d hd] at hs
      exact Severity.noConfusion hs
  | cons b bs =>
    simp only [List.isEmpty_cons, Bool.false_eq_true, if_false]
    constructor
    · intro _
      exact ⟨b, List.mem_append.mpr (Or.inr (List.mem_cons_self _ _)),
             hb b (List.mem_cons_self _ _)⟩
    · intro _; trivial

lemma sqlRun_block_iff (fp c : String) :
    (sqlRun fp c).decision = Decision.Block ↔
    ∃ d ∈ (sqlRun fp c).diags, d.severity = Severity.BLOCK := by
  unfold sqlRun
  split
  · simp [allowNothing]
  · split
    · simp [allowNothing]
    · split
      · simp [allowNothing]
      · exact block_iff_gen _ _ (fun d hd => (sqlWarnings_shape hd).1)
          (fun d hd => (sqlBlockers_shape hd).1)

lemma block_iff_any (V : List Diagnostic) :
    ((if V.any (fun d => d.severity == Severity.BLOCK) then Decision.Block
       else Decision.Allow) = Decision.Block ↔
      ∃ d ∈ V, d.severity = Severity.BLOCK) := by
  by_cases h : V.any (fun d => d.severity == Severity.BLOCK) = true
  · rw [if_pos h]
    simp only [List.any_eq_true, beq_iff_eq] at h
    exact ⟨fun _ => h, fun _ => rfl⟩
  · rw [if_neg h]
    simp only [List.any_eq_true, beq_iff_eq] at h
    constructor
    · intro hc; exact Decision.noConfusion hc
    · intro hx; exact absurd hx h

lemma layerRun_block_iff (fp c : String) :
    (layerRun fp c).decision = Decision.Block ↔
    ∃ d ∈ (layerRun fp c).diags, d.severity = Severity.BLOCK := by
  unfold layerRun
  split
  · simp [allowNothing]
  · split
    · simp [allowNothing]
    · split
      · simp [allowNothing]
      · split
        · simp [allowNothing]
        · split
          · simp [allowNothing]
          · exact block_iff_any _

lemma codingRun_diags {fp c : String} {d : Diagnostic}
    (h : d ∈ (codingRun fp c).diags) : d ∈ codingChecks c := by
  unfold codingRun at h
  split at h
  · simp [allowNothing] at h
  · split at h
    · simp [allowNothing] at h
    · exact h

lemma codingRun_allow (fp c : String) : (codingRun fp c).decision = Decision.Allow := by
  unfold codingRun
  split
  · rfl
  · split <;> rfl

lemma openapiRun_diags {fp c : String} {d : Diagnostic}
    (h : d ∈ (openapiRun fp c).diags) : d ∈ openapiChecks c := by
  unfold openapiRun at h
  split at h
  · simp [allowNothing] at h
  · split at h
    · simp [allowNothing] at h
    · exact h

lemma openapiRun_allow (fp c : String) : (openapiRun fp c).decision = Decision.Allow := by
  unfold openapiRun
  split
  · rfl
  · split <;> rfl

lemma serilogRun_diags {fp c : String} {d : Diagnostic}
    (h : d ∈ (serilogRun fp c).diags) :
    d ∈ check_string_interpolation c ++ check_pii_parameters c := by
  unfold serilogRun at h
  split at h
  · simp [allowNothing] at h
  · split at h
    · simp [allowNothing] at h
    · split at h
      · simp [allowNothing] at h
      · exact h

lemma serilogRun_allow (fp c : String) : (serilogRun fp c).decision = Decision.Allow := by
  unfold serilogRun
  split
  · rfl
  · split
    · rfl
    · split <;> rfl

lemma sqlRun_diags {fp c : String} {d : Diagnostic}
    (h : d ∈ (sqlRun fp c).diags) : d ∈ sqlWarnings c ++ sqlBlockers c := by
  unfold sqlRun at h
  split at h
  · simp [allowNothing] at h
  · split at h
    · simp [allowNothing] at h
    · split at h
      · simp [allowNothing] at h
      · exact h

lemma layerRun_diags {fp c : String} {d : Diagnostic}
    (h : d ∈ (layerRun fp c).diags) :
    ∃ L, d ∈ layerViolations L (extract_usings c) := by
  unfold layerRun at h
  split at h
  · simp [allowNothing] at h
  · split at h
    · simp [allowNothing] at h
    · split at h
      · simp [allowNothing] at h
      · rename_i L hL
        split at h
        · simp [allowNothing] at h
        · split at h
          · simp [allowNothing] at h
          · exact ⟨L, h⟩

/-! ## Empty-content short-circuits -/

lemma sqlRun_empty (fp : String) : sqlRun fp "" = allowNothing := by
  unfold sqlRun
  split
  · rfl
  · split
    · rfl
    · split
      · rfl
      · rename_i h; exact absurd rfl h

lemma codingRun_empty (fp : String) : codingRun fp "" = allowNothing := by
  unfold codingRun
  split
  · rfl
  · split
    · rfl
    · rename_i h; exact absurd rfl h

lemma openapiRun_empty (fp : String) : openapiRun fp "" = allowNothing := by
  unfold openapiRun
  split
  · rfl
  · split
    · rfl
    · rename_i h; exact absurd rfl h

lemma serilogRun_empty (fp : String) : serilogRun fp "" = allowNothing := by
  unfold serilogRun
  split
  · rfl
  · split
    · rfl
    · rename_i h; exact absurd rfl h

lemma layerRun_empty (fp : String) : layerRun fp "" = allowNothing := by
  unfold layerRun
  split
  · rfl
  · split
    · rfl
    · rename_i h; exact absurd rfl h

/-! ## Fail-open lemmas for the JSON shell -/

/-- When normalization yields an empty path, every hook allows with no
diagnostics (the extension/name filters all reject the empty path). -/
lemma mains_allow_of_empty_path {p cj : Json}
    (hex : extract_file_and_content p = Except.ok (Json.str (""), cj)) :
    sqlMain (some p) = Except.ok allowNothing ∧
    codingMain (some p) = Except.ok allowNothing ∧
    openapiMain (some p) = Except.ok allowNothing ∧
    serilogMain (some p) = Except.ok allowNothing ∧
    layerMain (some p) = Except.ok allowNothing := by
  refine ⟨?_, ?_, ?_, ?_, ?_⟩
  · simp only [sqlMain]; rw [hex]; rfl
  · simp only [codingMain]; rw [hex]; rfl
  · simp only [openapiMain]; rw [hex]; rfl
  · simp only [serilogMain]; rw [hex]; rfl
  · simp only [layerMain]; rw [hex]; rfl

/-- When normalization yields a string path and empty content, every hook
allows with no diagnostics. -/
lemma mains_allow_of_empty_content {p : Json} {s : String}
    (hex : extract_file_and_content p = Except.ok (Json.str s, Json.str (""))) :
    sqlMain (some p) = Except.ok allowNothing ∧
    codingMain (some p) = Except.ok allowNothing ∧
    openapiMain (some p) = Except.ok allowNothing ∧
    serilogMain (some p) = Except.ok allowNothing ∧
    layerMain (some p) = Except.ok allowNothing := by
  refine ⟨?_, ?_, ?_, ?_, ?_⟩
  · simp only [sqlMain]; rw [hex]; dsimp only [jsonAsStr]
    split
    · rfl
    · split
      · rfl
      · rfl
  · simp only [codingMain]; rw [hex]; dsimp only [jsonAsStr]
    split
    · rfl
    · rfl
  · simp only [openapiMain]; rw [hex]; dsimp only [jsonAsStr]
    split
    · rfl
    · rfl
  · simp only [serilogMain]; rw [hex]; dsimp only [jsonAsStr]
    split
    · rfl
    · rfl
  · simp only [layerMain]; rw [hex]; dsimp only [jsonAsStr]
    split
    · rfl
    · rfl

lemma jsonIsStr_ne {v : Json} {a b : String}
    (ha : jsonIsStr v a = true) (hab : a ≠ b) : jsonIsStr v b = false := by
  cases v <;> simp [jsonIsStr] at ha ⊢
  rename_i t
  intro hb
  exact hab (ha ▸ hb ▸ rfl)

lemma extract_of_unknown_tool {kvs ti : List (String × Json)}
    (hti : (dictGet kvs (("tool_input"))).getD (Json.obj []) = Json.obj ti)
    (hW : jsonIsStr ((dictGet kvs ("tool_name")).getD (Json.str (""))) ("Write") = false)
    (hE : jsonIsStr ((dictGet kvs ("tool_name")).getD (Json.str (""))) ("Edit") = false)
    (hM : jsonIsStr ((dictGet kvs ("tool_name")).getD (Json.str (""))) ("MultiEdit") = false) :
    extract_file_and_content (Json.obj kvs) =
      Except.ok ((dictGet ti ("file_path")).getD (Json.str ("")), Json.str ("")) := by
  simp [extract_file_and_content, hti, hW, hE, hM]

lemma extract_of_write {kvs ti : List (String × Json)}
    (hti : (dictGet kvs (("tool_input"))).getD (Json.obj []) = Json.obj ti)
    (hW : jsonIsStr ((dictGet kvs ("tool_name")).getD (Json.str (""))) ("Write") = true) :
    extract_file_and_content (Json.obj kvs) =
      Except.ok ((dictGet ti ("file_path")).getD (Json.str ("")),
                 (dictGet ti ("content")).getD (Json.str (""))) := by
  simp [extract_file_and_content, hti, hW]

lemma extract_of_edit {kvs ti : List (String × Json)}
    (hti : (dictGet kvs (("tool_input"))).getD (Json.obj []) = Json.obj ti)
    (hW : jsonIsStr ((dictGet kvs ("tool_name")).getD (Json.str (""))) ("Write") = false)
    (hE : jsonIsStr ((dictGet kvs ("tool_name")).getD (Json.str (""))) ("Edit") = true) :
    extract_file_and_content (Json.obj kvs) =
      Except.ok ((dictGet ti ("file_path")).getD (Json.str ("")),
                 (dictGet ti ("new_string")).getD (Json.str (""))) := by
  simp [extract_file_and_content, hti, hW, hE]

/-- Every hook's `main` allows with no diagnostics on a benign payload. -/
lemma mains_allow_of_benign {j : Json} (hb : benignPayload j = true) :
    sqlMain (some j) = Except.ok allowNothing ∧
    codingMain (some j) = Except.ok allowNothing ∧
    openapiMain (some j) = Except.ok allowNothing ∧
    serilogMain (some j) = Except.ok allowNothing ∧
    layerMain (some j) = Except.ok allowNothing := by
  cases j with
  | null => simp [benignPayload] at hb
  | bool b => simp [benignPayload] at hb
  | num n => simp [benignPayload] at hb
  | str s => simp [benignPayload] at hb
  | arr es => simp [benignPayload] at hb
  | obj kvs =>
    simp only [benignPayload] at hb
    rcases hti : (dictGet kvs ("tool_input")).getD (Json.obj []) with _ | b | n | s | es | ti <;>
      rw [hti] at hb
    case null => simp at hb
    case bool => simp at hb
    case num => simp at hb
    case str => simp at hb
    case arr => simp at hb
    case obj =>
    simp only [Bool.and_eq_true, Bool.or_eq_true, Bool.not_eq_true'] at hb
    obtain ⟨hfpOk, hrest⟩ := hb
    rcases hrest with ⟨⟨hW, hE⟩, hM⟩ | ⟨hWE, hfpE⟩
    · have hex := extract_of_unknown_tool hti hW hE hM
      simp only [benignFilePath] at hfpOk
      rcases hfp : dictGet ti ("file_path") with _ | v
      · rw [hfp] at hex
        simp only [Option.getD_none] at hex
        exact mains_allow_of_empty_content hex
      · rw [hfp] at hfpOk hex
        simp only [Option.getD_some] at hex
        rcases v with _ | vb | vn | vs | va | vo
        case str => exact mains_allow_of_empty_content hex
        all_goals simp at hfpOk
    · have hfpv : (dictGet ti ("file_path")).getD (Json.str ("")) = Json.str ("") := by
        simp only [benignEmptyPath] at hfpE
        rcases hfp : dictGet ti ("file_path") with _ | v
        · simp
        · rw [hfp] at hfpE
          rcases v with _ | vb | vn | vs | va | vo
          case str =>
            simp only [Option.getD_some]
            simp only [beq_iff_eq] at hfpE
            rw [hfpE]
          all_goals simp at hfpE
      by_cases hW : jsonIsStr ((dictGet kvs ("tool_name")).getD (Json.str (""))) ("Write") = true
      · have hex := extract_of_write hti hW
        rw [hfpv] at hex
        exact mains_allow_of_empty_path hex
      · have hWf : jsonIsStr ((dictGet kvs ("tool_name")).getD (Json.str (""))) ("Write") = false := by
          simpa using hW
        have hE : jsonIsStr ((dictGet kvs ("tool_name")).getD (Json.str (""))) ("Edit") = true := by
          rcases hWE with h | h
          · exact absurd h hW
          · exact h
        have hex := extract_of_edit hti hWf hE
        rw [hfpv] at hex
        exact mains_allow_of_empty_path hex

/-! ## detect_layer order lemmas -/

lemma find?_earliest {α : Type} (p : α → Bool) :
    ∀ (l : List α) (i : Nat) (x : α), l.get? i = some x → p x = true →
      ∃ j y, l.find? p = some y ∧ p y = true ∧ l.get? j = some y ∧ j ≤ i := by
  intro l
  induction l with
  | nil => intro i x hg _; simp at hg
  | cons a as ih =>
    intro i x hg hp
    by_cases hpa : p a = true
    · exact ⟨0, a, List.find?_cons_of_pos _ hpa, hpa, rfl, Nat.zero_le _⟩
    · have hpa' : p a = false := by simpa using hpa
      cases i with
      | zero =>
        simp at hg
        subst hg
        exact absurd hp hpa
      | succ i2 =>
        simp only [List.get?_cons_succ] at hg
        obtain ⟨j, y, h1, h2, h3, h4⟩ := ih i2 x hg hp
        refine ⟨j + 1, y, ?_, h2, by simpa using h3, by omega⟩
        rw [List.find?_cons_of_neg _ hpa]
        exact h1

lemma layerOrder_get_rank {j : Nat} {y : Layer} (h : layerOrder.get? j = some y) :
    layerRank y = j := by
  rcases j with _ | _ | _ | _ | j4
  · simp [layerOrder] at h; rw [← h]; rfl
  · simp [layerOrder] at h; rw [← h]; rfl
  · simp [layerOrder] at h; rw [← h]; rfl
  · simp [layerOrder] at h; rw [← h]; rfl
  · simp [layerOrder] at h

lemma layerOrder_get_of_rank (L : Layer) : layerOrder.get? (layerRank L) = some L := by
  cases L <;> rfl

lemma detect_layer_eq_find (fp : String) :
    detect_layer fp = layerOrder.find? (fun L => layerMatches fp (layerPatternsOf L)) := by
  cases hD : layerMatches fp (layerPatternsOf Layer.Domain) <;>
  cases hA : layerMatches fp (layerPatternsOf Layer.Application) <;>
  cases hI : layerMatches fp (layerPatternsOf Layer.Infrastructure) <;>
  cases hApi : layerMatches fp (layerPatternsOf Layer.Api) <;>
    (simp only [layerPatternsOf] at hD hA hI hApi
     simp [detect_layer, detectAux, LAYER_PATTERNS, layerOrder, List.find?,
           layerPatternsOf, hD, hA, hI, hApi])

lemma detect_layer_earliest {fp : String} {L : Layer}
    (h : layerMatches fp (layerPatternsOf L) = true) :
    ∃ L2, detect_layer fp = some L2 ∧ layerMatches fp (layerPatternsOf L2) = true ∧
      layerRank L2 ≤ layerRank L := by
  obtain ⟨j, y, h1, h2, h3, h4⟩ :=
    find?_earliest (fun L2 => layerMatches fp (layerPatternsOf L2)) layerOrder
      (layerRank L) L (layerOrder_get_of_rank L) h
  refine ⟨y, (detect_layer_eq_find fp).trans h1, h2, ?_⟩
  rw [layerOrder_get_rank h3]
  exact h4

/-! ## Application-layer segment matching -/

lemma app_layer_single_iff (i : Nat) (ns : String) :
    check_application_layer [(i, ns)] ≠ [] ↔ ("Infrastructure") ∈ pySplitDot ns := by
  simp [check_application_layer, APPLICATION_FORBIDDEN]

/-- Project a bounded some-line fact to the line-attribution conclusion. -/
lemma lineAttr_of_some {c : String} {d : Diagnostic} {P : Prop}
    (hx : ∃ n, d.line = some n ∧ 1 ≤ n ∧ n ≤ (pySplitlines c).length) :
    (∀ n, d.line = some n → 1 ≤ n ∧ n ≤ (pySplitlines c).length) ∧ (d.line = none → P) := by
  obtain ⟨n, hn, h1, h2⟩ := hx
  constructor
  · intro m hm
    rw [hn] at hm
    injection hm with e
    exact ⟨e ▸ h1, e ▸ h2⟩
  · intro hnone
    rw [hn] at hnone
    exact Option.noConfusion hnone

/-- Project a no-line fact to the line-attribution conclusion. -/
lemma lineAttr_of_none {c : String} {d : Diagnostic} {P : Prop}
    (hn : d.line = none) (hp : P) :
    (∀ n, d.line = some n → 1 ≤ n ∧ n ≤ (pySplitlines c).length) ∧ (d.line = none → P) := by
  constructor
  · intro m hm
    rw [hn] at hm
    exact Option.noConfusion hm
  · intro _
    exact hp

/-! ## Claim theorems -/

/-- C1 (counterexample): the claim that normalization never raises fails on
the code.  `[]` is valid JSON, so `json.loads` succeeds, and then
`payload.get("tool_name", "")` raises `AttributeError` in every hook: the
process dies with a traceback (exit 1), not the Allow exit. -/
theorem C1_counterexample :
    sqlMain (some (Json.arr [])) = Except.error () ∧
    codingMain (some (Json.arr [])) = Except.error () ∧
    openapiMain (some (Json.arr [])) = Except.error () ∧
    serilogMain (some (Json.arr [])) = Except.error () ∧
    layerMain (some (Json.arr [])) = Except.error () :=
  ⟨rfl, rfl, rfl, rfl, rfl⟩

/-- C1 (amended): input that fails JSON parsing makes every hook exit Allow
with zero diagnostics; and for payloads that are JSON objects with an
object-or-absent `tool_input` and string-or-absent `file_path`, describing
none of the three edit shapes or a `Write`/`Edit` carrying no path, every
hook terminates normally with Allow and zero diagnostics.  (Payloads outside
that set — e.g. a top-level JSON array — can make the normalization raise.) -/
theorem C1_fail_open_amended (j : Json) (hb : benignPayload j = true) :
    (sqlMain none = Except.ok allowNothing ∧ codingMain none = Except.ok allowNothing ∧
     openapiMain none = Except.ok allowNothing ∧ serilogMain none = Except.ok allowNothing ∧
     layerMain none = Except.ok allowNothing) ∧
    (sqlMain (some j) = Except.ok allowNothing ∧ codingMain (some j) = Except.ok allowNothing ∧
     openapiMain (some j) = Except.ok allowNothing ∧ serilogMain (some j) = Except.ok allowNothing ∧
     layerMain (some j) = Except.ok allowNothing) :=
  ⟨⟨rfl, rfl, rfl, rfl, rfl⟩, mains_allow_of_benign hb⟩

/-- C1 (witness): a concrete unknown-shape payload is benign and allowed. -/
theorem C1_witness :
    benignPayload (Json.obj [(("tool_name"), Json.str ("Task"))]) = true ∧
    sqlMain (some (Json.obj [(("tool_name"), Json.str ("Task"))])) = Except.ok allowNothing ∧
    layerMain (some (Json.obj [(("tool_name"), Json.str ("Task"))])) = Except.ok allowNothing :=
  ⟨rfl, (C1_fail_open_amended (Json.obj [(("tool_name"), Json.str ("Task"))]) rfl).2.1,
   (C1_fail_open_amended (Json.obj [(("tool_name"), Json.str ("Task"))]) rfl).2.2.2.2.2⟩

/-- C2: for every event, each hook's decision is Block (exit 2) iff some
produced diagnostic has severity BLOCK; the coding-standards, OpenAPI and
Serilog hooks always Allow with only WARN findings; and a BLOCK diagnostic
can only come from the SQL string-concatenation check, the SQL
non-parameterized-WHERE check, or the Domain/Application layer checks. -/
theorem C2_block_iff_blocker :
    ∀ fp c,
      ((sqlRun fp c).decision = Decision.Block ↔
        ∃ d ∈ (sqlRun fp c).diags, d.severity = Severity.BLOCK) ∧
      ((layerRun fp c).decision = Decision.Block ↔
        ∃ d ∈ (layerRun fp c).diags, d.severity = Severity.BLOCK) ∧
      ((codingRun fp c).decision = Decision.Allow ∧
        ∀ d ∈ (codingRun fp c).diags, d.severity = Severity.WARN) ∧
      ((openapiRun fp c).decision = Decision.Allow ∧
        ∀ d ∈ (openapiRun fp c).diags, d.severity = Severity.WARN) ∧
      ((serilogRun fp c).decision = Decision.Allow ∧
        ∀ d ∈ (serilogRun fp c).diags, d.severity = Severity.WARN) ∧
      (∀ d, d ∈ (sqlRun fp c).diags ∨ d ∈ (layerRun fp c).diags →
        d.severity = Severity.BLOCK →
        d.rule = RuleId.sqlConcat ∨ d.rule = RuleId.sqlWhere ∨
        d.rule = RuleId.layerDomain ∨ d.rule = RuleId.layerApplication) := by
  intro fp c
  refine ⟨sqlRun_block_iff fp c, layerRun_block_iff fp c,
    ⟨codingRun_allow fp c, ?_⟩, ⟨openapiRun_allow fp c, ?_⟩,
    ⟨serilogRun_allow fp c, ?_⟩, ?_⟩
  · intro d hd
    exact (codingChecks_shape (codingRun_diags hd)).1
  · intro d hd
    exact (openapiChecks_shape (openapiRun_diags hd)).1
  · intro d hd
    rcases List.mem_append.mp (serilogRun_diags hd) with h1 | h1
    · exact (check_string_interpolation_shape h1).2.1
    · exact (check_pii_parameters_shape h1).2.1
  · intro d hd hb
    rcases hd with h1 | h1
    · rcases List.mem_append.mp (sqlRun_diags h1) with h2 | h2
      · rw [(sqlWarnings_shape h2).1] at hb
        exact Severity.noConfusion hb
      · rcases (sqlBlockers_shape h2).2.1 with h3 | h3
        · exact Or.inl h3
        · exact Or.inr (Or.inl h3)
    · obtain ⟨L, hL⟩ := layerRun_diags h1
      rcases (layerViolations_shape hL).2.1 hb with h3 | h3
      · exact Or.inr (Or.inr (Or.inl h3))
      · exact Or.inr (Or.inr (Or.inr h3))

/-- C2 (witness): a WHERE-clause numeric literal drives the decision to
Block through the iff. -/
theorem C2_witness :
    (sqlRun ("Infrastructure/W.sql") ("-- doc\nSELECT a FROM T WHERE b = 5")).decision =
      Decision.Block :=
  ((C2_block_iff_blocker ("Infrastructure/W.sql") ("-- doc\nSELECT a FROM T WHERE b = 5")).1).mpr
    (by decide)

/-- C3: in a SQL-rule-set file, `status = 0` in a WHERE clause yields no
diagnostic, `status = 2` yields exactly one BLOCK diagnostic, and
`name = 'bob'` yields exactly one BLOCK diagnostic. -/
theorem C3_where_clause_literals :
    sqlApplies sqlPathX = true ∧
    check_non_parameterized_where sqlZero = [] ∧
    check_non_parameterized_where sqlTwo = [sqlTwoDiag] ∧
    sqlTwoDiag.severity = Severity.BLOCK ∧
    (check_non_parameterized_where sqlBob).map (fun d => (d.severity, d.line)) =
      [(Severity.BLOCK, some 2)] ∧
    sqlRun sqlPathX sqlZero = allowNothing ∧
    (sqlRun sqlPathX sqlTwo).decision = Decision.Block ∧
    (sqlRun sqlPathX sqlTwo).diags = [sqlTwoDiag] ∧
    (sqlRun sqlPathX sqlBob).decision = Decision.Block ∧
    ((sqlRun sqlPathX sqlBob).diags.map (fun d => (d.severity, d.line))) =
      [(Severity.BLOCK, some 2)] :=
  ⟨rfl, rfl, rfl, rfl, rfl, rfl, rfl, rfl, rfl, rfl⟩

/-- C4: for Application-layer files, an import is blocked iff `Infrastructure`
is one of the dot-delimited segments of the namespace: segment-exact, not
substring.  `Foo.InfrastructureHelpers` passes, `Foo.Infrastructure.Data`
yields a BLOCK diagnostic and the Block decision. -/
theorem C4_application_segment :
    (∀ i ns, check_application_layer [(i, ns)] ≠ [] ↔
      ("Infrastructure") ∈ pySplitDot ns) ∧
    (∀ us, ∀ d ∈ check_application_layer us,
      d.severity = Severity.BLOCK ∧ d.rule = RuleId.layerApplication) ∧
    check_application_layer [(1, ("Foo.InfrastructureHelpers"))] = [] ∧
    (check_application_layer [(1, ("Foo.Infrastructure.Data"))]).map
      (fun d => (d.severity, d.line)) = [(Severity.BLOCK, some 1)] ∧
    detect_layer appPath = some Layer.Application ∧
    (layerRun appPath ("using Foo.Infrastructure.Data;")).decision = Decision.Block ∧
    layerRun appPath ("using Foo.InfrastructureHelpers;") = allowNothing := by
  refine ⟨app_layer_single_iff, ?_, rfl, rfl, rfl, rfl, rfl⟩
  intro us d hd
  obtain ⟨h1, h2, _⟩ := check_application_layer_shape hd
  exact ⟨h2, h1⟩

/-- C4 (witness): a namespace with an exact `Infrastructure` segment is
flagged, via the iff. -/
theorem C4_witness : check_application_layer [(4, ("Bar.Infrastructure"))] ≠ [] :=
  (C4_application_segment.1 4 ("Bar.Infrastructure")).mpr (by decide)

/-- C5 (counterexample): the missing-header-comment SQL diagnostic carries no
source line, refuting "every diagnostic is attributed to a 1-based line". -/
theorem C5_counterexample :
    ((sqlRun ("Infrastructure/NoHeader.sql") ("SELECT 1")).diags.map (fun d => d.line)) =
      [none] ∧
    ((sqlRun ("Infrastructure/NoHeader.sql") ("SELECT 1")).diags.map (fun d => d.rule)) =
      [RuleId.sqlHeader] :=
  ⟨rfl, rfl⟩

/-- C5 (amended): every diagnostic of every hook that carries a line carries
a 1-based line no larger than the number of lines of the inspected text; the
diagnostics carrying no line come only from the whole-file checks (SQL
header comment, SQL parameter documentation, and the six endpoint checks). -/
theorem C5_line_attribution (fp c : String) (d : Diagnostic)
    (h : d ∈ (codingRun fp c).diags ∨ d ∈ (sqlRun fp c).diags ∨ d ∈ (openapiRun fp c).diags ∨
         d ∈ (serilogRun fp c).diags ∨ d ∈ (layerRun fp c).diags) :
    (∀ n, d.line = some n → 1 ≤ n ∧ n ≤ (pySplitlines c).length) ∧
    (d.line = none →
      d.rule = RuleId.sqlHeader ∨ d.rule = RuleId.sqlParamDoc ∨ d.rule = RuleId.apiWithName ∨
      d.rule = RuleId.apiProduces ∨ d.rule = RuleId.apiWithTags ∨ d.rule = RuleId.apiSummary ∨
      d.rule = RuleId.apiAuth ∨ d.rule = RuleId.apiDirectParam) := by
  rcases h with h | h | h | h | h
  · exact lineAttr_of_some (codingChecks_shape (codingRun_diags h)).2
  · rcases List.mem_append.mp (sqlRun_diags h) with h1 | h1
    · obtain ⟨_, hline, hr⟩ := sqlWarnings_shape h1
      refine lineAttr_of_none hline ?_
      rcases hr with h2 | h2
      · exact Or.inl h2
      · exact Or.inr (Or.inl h2)
    · exact lineAttr_of_some (sqlBlockers_shape h1).2.2
  · obtain ⟨_, hline, hr⟩ := openapiChecks_shape (openapiRun_diags h)
    refine lineAttr_of_none hline ?_
    rcases hr with h2 | h2 | h2 | h2 | h2 | h2
    · exact Or.inr (Or.inr (Or.inl h2))
    · exact Or.inr (Or.inr (Or.inr (Or.inl h2)))
    · exact Or.inr (Or.inr (Or.inr (Or.inr (Or.inl h2))))
    · exact Or.inr (Or.inr (Or.inr (Or.inr (Or.inr (Or.inl h2)))))
    · exact Or.inr (Or.inr (Or.inr (Or.inr (Or.inr (Or.inr (Or.inl h2))))))
    · exact Or.inr (Or.inr (Or.inr (Or.inr (Or.inr (Or.inr (Or.inr h2))))))
  · rcases List.mem_append.mp (serilogRun_diags h) with h1 | h1
    · exact lineAttr_of_some (check_string_interpolation_shape h1).2.2
    · exact lineAttr_of_some (check_pii_parameters_shape h1).2.2
  · obtain ⟨L, hL⟩ := layerRun_diags h
    obtain ⟨_, _, u, hu, hlu⟩ := layerViolations_shape hL
    have hb := extract_usings_bounds hu
    exact lineAttr_of_some ⟨u.1, hlu, hb.1, hb.2⟩

/-- C5 (witness): the bound applied to the concrete WHERE-clause diagnostic
at line 2 of a two-line file. -/
theorem C5_witness : 1 ≤ 2 ∧ 2 ≤ (pySplitlines sqlTwo).length :=
  (C5_line_attribution sqlPathX sqlTwo sqlTwoDiag
    (Or.inr (Or.inl (by decide)))).1 2 rfl

/-- C6: an endpoint-named file lacking all five builder-call markers, with a
direct `(OrderCommand command)` parameter, yields exactly six WARN
diagnostics and the Allow decision. -/
theorem C6_endpoint_six_warns :
    (openapiRun endpointPath endpointBody).decision = Decision.Allow ∧
    (openapiRun endpointPath endpointBody).diags.map (fun d => (d.rule, d.severity, d.line)) =
      [(RuleId.apiWithName, Severity.WARN, none), (RuleId.apiProduces, Severity.WARN, none),
       (RuleId.apiWithTags, Severity.WARN, none), (RuleId.apiSummary, Severity.WARN, none),
       (RuleId.apiAuth, Severity.WARN, none), (RuleId.apiDirectParam, Severity.WARN, none)] ∧
    (openapiRun endpointPath endpointBody).diags.length = 6 :=
  ⟨rfl, rfl, rfl⟩

/-- C7: a documented `public class FooCommand` (not `sealed record`) yields
exactly one WARN diagnostic, and it names `FooCommand`. -/
theorem C7_foocommand_sealed_warn :
    (codingRun fooCommandPath fooCommandBody).decision = Decision.Allow ∧
    (codingRun fooCommandPath fooCommandBody).diags.map (fun d => (d.rule, d.severity, d.line)) =
      [(RuleId.sealedRecord, Severity.WARN, some 2)] ∧
    ((codingRun fooCommandPath fooCommandBody).diags.filter
      (fun d => strContains d.message ("FooCommand"))).length = 1 :=
  ⟨rfl, rfl, rfl⟩

/-- C8: each hook's engine is a pure function of the `(path, text)` pair:
equal inputs give equal diagnostics and decisions.  The embedding carries no
state beyond its arguments, mirroring the absence of process-wide mutable
state in the hooks. -/
theorem C8_determinism (fp c fp2 c2 : String) (hfp : fp = fp2) (hc : c = c2) :
    sqlRun fp c = sqlRun fp2 c2 ∧ codingRun fp c = codingRun fp2 c2 ∧
    openapiRun fp c = openapiRun fp2 c2 ∧ serilogRun fp c = serilogRun fp2 c2 ∧
    layerRun fp c = layerRun fp2 c2 := by
  subst hfp
  subst hc
  exact ⟨rfl, rfl, rfl, rfl, rfl⟩

/-- C8 (witness): determinism at a concrete input. -/
theorem C8_witness :
    sqlRun ("Infrastructure/D.sql") ("SELECT 1") = sqlRun ("Infrastructure/D.sql") ("SELECT 1") ∧
    codingRun ("Infrastructure/D.sql") ("SELECT 1") = codingRun ("Infrastructure/D.sql") ("SELECT 1") ∧
    openapiRun ("Infrastructure/D.sql") ("SELECT 1") = openapiRun ("Infrastructure/D.sql") ("SELECT 1") ∧
    serilogRun ("Infrastructure/D.sql") ("SELECT 1") = serilogRun ("Infrastructure/D.sql") ("SELECT 1") ∧
    layerRun ("Infrastructure/D.sql") ("SELECT 1") = layerRun ("Infrastructure/D.sql") ("SELECT 1") :=
  C8_determinism _ _ _ _ rfl rfl

/-- C9: empty normalized text short-circuits every hook to Allow with zero
diagnostics, before any rule (including absence-flagging rules like the SQL
header check or the endpoint marker checks) can run; shown for every path
and for concrete full-replacement and single-fragment empty edits. -/
theorem C9_empty_text_short_circuit :
    (∀ fp, sqlRun fp "" = allowNothing ∧ codingRun fp "" = allowNothing ∧
      openapiRun fp "" = allowNothing ∧ serilogRun fp "" = allowNothing ∧
      layerRun fp "" = allowNothing) ∧
    sqlMain (some (Json.obj [(("tool_name"), Json.str ("Write")),
      (("tool_input"), Json.obj [(("file_path"), Json.str ("Infrastructure/Empty.sql")),
        (("content"), Json.str (""))])])) = Except.ok allowNothing ∧
    openapiMain (some (Json.obj [(("tool_name"), Json.str ("Edit")),
      (("tool_input"), Json.obj [(("file_path"), Json.str ("OrderEndpoint.cs")),
        (("new_string"), Json.str (""))])])) = Except.ok allowNothing :=
  ⟨fun fp => ⟨sqlRun_empty fp, codingRun_empty fp, openapiRun_empty fp,
    serilogRun_empty fp, layerRun_empty fp⟩, rfl, rfl⟩

/-- C10: layer classification tries Domain, Application, Infrastructure, Api
in that fixed order and returns the first layer with a pattern occurring in
the path, so a path with several layers' tokens classifies as the earliest
one; concretely a path with both `/Domain/` and `/Api/` is Domain. -/
theorem C10_layer_first_match :
    (LAYER_PATTERNS.map (fun q => q.1) = layerOrder) ∧
    (LAYER_PATTERNS = layerOrder.map (fun L => (L, layerPatternsOf L))) ∧
    (∀ fp, detect_layer fp = layerOrder.find? (fun L => layerMatches fp (layerPatternsOf L))) ∧
    (∀ fp L, layerMatches fp (layerPatternsOf L) = true →
      ∃ L2, detect_layer fp = some L2 ∧ layerMatches fp (layerPatternsOf L2) = true ∧
        layerRank L2 ≤ layerRank L) ∧
    detect_layer ("/a/Domain/b/Api/c.cs") = some Layer.Domain ∧
    layerMatches ("/a/Domain/b/Api/c.cs") (layerPatternsOf Layer.Api) = true :=
  ⟨rfl, rfl, detect_layer_eq_find, fun _ _ h => detect_layer_earliest h, rfl, rfl⟩

/-- C10 (witness): a path with both Api and Domain tokens classifies no
later than Api in the order. -/
theorem C10_witness :
    ∃ L2, detect_layer ("/x/Api/y/Domain/z.cs") = some L2 ∧
      layerMatches ("/x/Api/y/Domain/z.cs") (layerPatternsOf L2) = true ∧
      layerRank L2 ≤ layerRank Layer.Api :=
  (C10_layer_first_match.2.2.2.1) ("/x/Api/y/Domain/z.cs") Layer.Api (by decide)
